import Mathlib

/-!
Verification of the wiring-diagram allocation engine.

This file gives a shallow embedding of the allocation engine
(`src/engine/cable_sizer.py`, `src/engine/terminal_allocator.py`,
`src/engine/io_allocator.py`, `src/engine/tag_generator.py`) and proves the
engine's stated invariants over it.  Machine arithmetic on spare percentages
is modelled with exact rationals; Python `math.ceil` / `math.floor` / `int()`
become `Int.ceil` / `Int.floor` / truncation toward zero on `ℚ`.
-/

namespace WiringDiagram

/-- Truncation toward zero, the behaviour of Python `int()` on a number. -/
def intTrunc (q : ℚ) : ℤ := if q < 0 then ⌈q⌉ else ⌊q⌋

/-- Signal type classification for instruments (models `SignalType` in
`src/models/instrument.py`). -/
inductive SignalType
  | analogInput
  | analogOutput
  | digitalInput
  | digitalOutput
  | thermocouple
  | rtd3wire
  | rtd4wire
deriving DecidableEq, Repr

/-- Terminal allocation status (models `TerminalStatus` in `src/models/terminal.py`). -/
inductive TerminalStatus
  | used
  | spare
  | reserved
deriving DecidableEq, Repr

/-- Equipment location type (models `EquipmentLocation`). -/
inductive EquipmentLocation
  | junctionBox
  | marshallingCabinet
deriving DecidableEq, Repr

/-- An instrument record (models the `Instrument` dataclass fields the engine
reads and writes; `signal_type` is optional exactly as in the dataclass). -/
structure Instrument where
  tag_number : String
  instrument_type : String
  service : String
  area : String
  signal_type : Option SignalType := none
  jb_terminal_positive : Option String := none
  jb_terminal_negative : Option String := none
  jb_terminal_shield : Option String := none
  cabinet_terminal_pair : Option String := none
  cabinet_terminal_positive : Option String := none
  cabinet_terminal_negative : Option String := none
deriving DecidableEq, Repr

/-! ## Cable sizer (`src/engine/cable_sizer.py`) -/

/-- Standard multipair cable sizes (models `MULTIPAIR_SIZES` in `src/models/cable.py`). -/
def MULTIPAIR_SIZES : List ℕ := [5, 10, 20]

/-- Error raised by `calculate_multipair_size`; the constructor carries the
numbers interpolated into the Python exception message. -/
inductive CableSizingError
  | tooManyInstruments (instrument_count : ℕ) (max_size : ℕ) (required_with_spare : ℕ)
deriving DecidableEq, Repr

/-- Required multipair size with spare margin (models the body of
`calculate_multipair_size`): smallest standard size at least
`ceil(instrument_count * (1 + spare_percent))`, else a sizing error. -/
def calculate_multipair_size (instrument_count : ℕ) (spare_percent : ℚ) :
    Except CableSizingError ℕ :=
  if instrument_count = 0 then
    .ok 5
  else
    let required_with_spare := (⌈(instrument_count : ℚ) * (1 + spare_percent)⌉).toNat
    match MULTIPAIR_SIZES.find? (fun size => decide (required_with_spare ≤ size)) with
    | some size => .ok size
    | none =>
      if 20 < required_with_spare then
        .error (.tooManyInstruments instrument_count 20 required_with_spare)
      else
        .ok 20

/-- Specification-side predicate: `r` is the smallest standard multipair size
that is at least `required`. -/
def IsSmallestStandardSize (required r : ℕ) : Prop :=
  r ∈ MULTIPAIR_SIZES ∧ required ≤ r ∧ ∀ s ∈ MULTIPAIR_SIZES, required ≤ s → r ≤ s

/-- Characterisation of `calculate_multipair_size` used by the cable-sizing
theorems. -/
lemma calculate_multipair_size_eq (n : ℕ) (p : ℚ) :
    calculate_multipair_size n p =
      if n = 0 then .ok 5
      else
        let R := (⌈(n : ℚ) * (1 + p)⌉).toNat
        if R ≤ 5 then .ok 5
        else if R ≤ 10 then .ok 10
        else if R ≤ 20 then .ok 20
        else .error (.tooManyInstruments n 20 R) := by
  unfold calculate_multipair_size
  by_cases h0 : n = 0
  · simp [h0]
  · simp only [h0, if_false]
    set R := (⌈(n : ℚ) * (1 + p)⌉).toNat with hR
    by_cases h5 : R ≤ 5
    · simp [MULTIPAIR_SIZES, List.find?, h5]
    · by_cases h10 : R ≤ 10
      · simp [MULTIPAIR_SIZES, List.find?, h5, h10]
      · by_cases h20 : R ≤ 20
        · simp [MULTIPAIR_SIZES, List.find?, h5, h10, h20]
        · simp [MULTIPAIR_SIZES, List.find?, h5, h10, h20, Nat.lt_of_not_le h20]

/-- Helper: the ceiling with spare margin is at least the instrument count. -/
lemma le_required (n : ℕ) (p : ℚ) (hp : 0 ≤ p) :
    n ≤ ((⌈(n : ℚ) * (1 + p)⌉).toNat) := by
  have h1 : (n : ℚ) ≤ (n : ℚ) * (1 + p) := by nlinarith [Nat.cast_nonneg (α := ℚ) n]
  have h2 : ((n : ℕ) : ℤ) ≤ ⌈(n : ℚ) * (1 + p)⌉ := by
    calc ((n : ℕ) : ℤ) = ⌈((n : ℕ) : ℚ)⌉ := by rw [Int.ceil_natCast]
    _ ≤ ⌈(n : ℚ) * (1 + p)⌉ := Int.ceil_le_ceil h1
  have h0 : (0 : ℤ) ≤ ⌈(n : ℚ) * (1 + p)⌉ := le_trans (by positivity) h2
  exact (Int.le_toNat h0).mpr h2

/-- Helper: the required size is monotone in the instrument count. -/
lemma required_mono (p : ℚ) (hp : 0 ≤ p) {n₁ n₂ : ℕ} (h : n₁ ≤ n₂) :
    (⌈(n₁ : ℚ) * (1 + p)⌉).toNat ≤ (⌈(n₂ : ℚ) * (1 + p)⌉).toNat := by
  have hq : (n₁ : ℚ) * (1 + p) ≤ (n₂ : ℚ) * (1 + p) := by
    have : (n₁ : ℚ) ≤ (n₂ : ℚ) := by exact_mod_cast h
    nlinarith
  exact Int.toNat_le_toNat (Int.ceil_le_ceil hq)

/-- Concrete run: 5 instruments with 20% spare need a 10-pair cable. -/
lemma mp_size_5 : calculate_multipair_size 5 (1/5) = .ok 10 := by
  have h : (⌈((5 : ℕ) : ℚ) * (1 + 1/5)⌉).toNat = 6 := by
    have h2 : (⌈((5 : ℕ) : ℚ) * (1 + 1/5)⌉) = 6 := by
      rw [Int.ceil_eq_iff]
      constructor
      · push_cast; norm_num
      · push_cast; norm_num
    rw [h2]; rfl
  rw [calculate_multipair_size_eq]
  simp only [h]
  norm_num

/-- Concrete run: 16 instruments with 20% spare need a 20-pair cable. -/
lemma mp_size_16 : calculate_multipair_size 16 (1/5) = .ok 20 := by
  have h : (⌈((16 : ℕ) : ℚ) * (1 + 1/5)⌉).toNat = 20 := by
    have h2 : (⌈((16 : ℕ) : ℚ) * (1 + 1/5)⌉) = 20 := by
      rw [Int.ceil_eq_iff]
      constructor
      · push_cast; norm_num
      · push_cast; norm_num
    rw [h2]; rfl
  rw [calculate_multipair_size_eq]
  simp only [h]
  norm_num

/-- C3: for n ≥ 1 and spare_percent ≥ 0, `calculate_multipair_size` returns
the smallest standard size at least ceil(n * (1 + p)) when one exists, and
fails with a `CableSizingError` naming the overflow when ceil(n * (1 + p))
exceeds 20; in particular 5 instruments at 20% give 10 and 16 give 20. -/
theorem multipair_size_correct (n : ℕ) (p : ℚ) (hn : 1 ≤ n) (hp : 0 ≤ p) :
    (∀ r, calculate_multipair_size n p = .ok r →
        IsSmallestStandardSize (⌈(n : ℚ) * (1 + p)⌉).toNat r) ∧
    (20 < ⌈(n : ℚ) * (1 + p)⌉ →
        calculate_multipair_size n p =
          .error (.tooManyInstruments n 20 (⌈(n : ℚ) * (1 + p)⌉).toNat)) ∧
    (⌈(n : ℚ) * (1 + p)⌉ ≤ 20 → ∃ r, calculate_multipair_size n p = .ok r) ∧
    (calculate_multipair_size 5 (1/5) = .ok 10 ∧
      calculate_multipair_size 16 (1/5) = .ok 20) := by
  have hn0 : n ≠ 0 := by omega
  have h20 : 20 < ⌈(n : ℚ) * (1 + p)⌉ ↔ 20 < (⌈(n : ℚ) * (1 + p)⌉).toNat := by
    exact Iff.symm Int.lt_toNat
  rw [calculate_multipair_size_eq]
  simp only [hn0, if_false]
  set R := (⌈(n : ℚ) * (1 + p)⌉).toNat with hR
  refine ⟨?_, ?_, ?_, mp_size_5, mp_size_16⟩
  · intro r hr
    by_cases h5 : R ≤ 5
    · simp [h5] at hr
      subst hr
      refine ⟨by simp [MULTIPAIR_SIZES], h5, ?_⟩
      intro s hs _
      simp [MULTIPAIR_SIZES] at hs
      omega
    · by_cases h10 : R ≤ 10
      · simp [h5, h10] at hr
        subst hr
        refine ⟨by simp [MULTIPAIR_SIZES], h10, ?_⟩
        intro s hs hRs
        simp [MULTIPAIR_SIZES] at hs
        omega
      · by_cases htw : R ≤ 20
        · simp [h5, h10, htw] at hr
          subst hr
          refine ⟨by simp [MULTIPAIR_SIZES], htw, ?_⟩
          intro s hs hRs
          simp [MULTIPAIR_SIZES] at hs
          omega
        · simp [h5, h10, htw] at hr
  · intro h
    rw [h20] at h
    have h5 : ¬ R ≤ 5 := by omega
    have h10 : ¬ R ≤ 10 := by omega
    have htw : ¬ R ≤ 20 := by omega
    simp [h5, h10, htw]
  · intro h
    have hle : R ≤ 20 := by
      by_contra hc
      exact absurd (h20.mpr (by omega)) (not_lt.mpr h)
    by_cases h5 : R ≤ 5
    · exact ⟨5, by simp [h5]⟩
    · by_cases h10 : R ≤ 10
      · exact ⟨10, by simp [h5, h10]⟩
      · exact ⟨20, by simp [h5, h10, hle]⟩

/-- Witness for C3 at n = 5, p = 1/5. -/
theorem multipair_size_correct_witness :
    1 ≤ 5 ∧ 0 ≤ (1/5 : ℚ) ∧
      (calculate_multipair_size 5 (1/5) = .ok 10 ∧
        calculate_multipair_size 16 (1/5) = .ok 20) :=
  ⟨by norm_num, by norm_num,
    (multipair_size_correct 5 (1/5) (by norm_num) (by norm_num)).2.2.2⟩

/-- Characterisation of successful runs of `calculate_multipair_size`. -/
lemma calculate_multipair_size_ok (n : ℕ) (p : ℚ) (r : ℕ)
    (h : calculate_multipair_size n p = .ok r) :
    (n = 0 ∧ r = 5) ∨
      (n ≠ 0 ∧
        (((⌈(n : ℚ) * (1 + p)⌉).toNat ≤ 5 ∧ r = 5) ∨
          (5 < (⌈(n : ℚ) * (1 + p)⌉).toNat ∧ (⌈(n : ℚ) * (1 + p)⌉).toNat ≤ 10 ∧ r = 10) ∨
          (10 < (⌈(n : ℚ) * (1 + p)⌉).toNat ∧ (⌈(n : ℚ) * (1 + p)⌉).toNat ≤ 20 ∧ r = 20))) := by
  rw [calculate_multipair_size_eq] at h
  by_cases hn0 : n = 0
  · simp [hn0] at h
    exact Or.inl ⟨hn0, h.symm⟩
  · simp only [hn0, if_false] at h
    set R := (⌈(n : ℚ) * (1 + p)⌉).toNat with hR
    refine Or.inr ⟨hn0, ?_⟩
    by_cases h5 : R ≤ 5
    · simp [h5] at h
      exact Or.inl ⟨h5, h.symm⟩
    · by_cases h10 : R ≤ 10
      · simp [h5, h10] at h
        exact Or.inr (Or.inl ⟨by omega, h10, h.symm⟩)
      · by_cases htw : R ≤ 20
        · simp [h5, h10, htw] at h
          exact Or.inr (Or.inr ⟨by omega, htw, h.symm⟩)
        · simp [h5, h10, htw] at h

/-- C8: for fixed spare_percent p ≥ 0, `calculate_multipair_size` is
non-decreasing in the instrument count over the inputs where it returns a
value, and its result is always at least the instrument count. -/
theorem multipair_size_monotone (p : ℚ) (hp : 0 ≤ p) :
    (∀ n r, calculate_multipair_size n p = .ok r → n ≤ r) ∧
    (∀ n₁ n₂ r₁ r₂, n₁ ≤ n₂ →
      calculate_multipair_size n₁ p = .ok r₁ →
      calculate_multipair_size n₂ p = .ok r₂ → r₁ ≤ r₂) := by
  constructor
  · intro n r h
    rcases calculate_multipair_size_ok n p r h with ⟨hn, hr⟩ | ⟨hn, hc⟩
    · omega
    · have hnR := le_required n p hp
      omega
  · intro n₁ n₂ r₁ r₂ hle h₁ h₂
    have hRm := required_mono p hp hle
    rcases calculate_multipair_size_ok n₁ p r₁ h₁ with ⟨hn₁, hr₁⟩ | ⟨hn₁, hd₁⟩
    · rcases calculate_multipair_size_ok n₂ p r₂ h₂ with ⟨hn₂, hr₂⟩ | ⟨hn₂, hd₂⟩
      · omega
      · omega
    · rcases calculate_multipair_size_ok n₂ p r₂ h₂ with ⟨hn₂, hr₂⟩ | ⟨hn₂, hd₂⟩
      · omega
      · omega

/-- Witness for C8 at p = 1/5, comparing the runs for 5 and 16 instruments. -/
theorem multipair_size_monotone_witness : 0 ≤ (1/5 : ℚ) ∧ 5 ≤ 16 ∧ 10 ≤ 20 :=
  ⟨by norm_num, by norm_num,
    (multipair_size_monotone (1/5) (by norm_num)).2 5 16 10 20 (by norm_num)
      mp_size_5 mp_size_16⟩

/-! ## Terminal allocator (`src/engine/terminal_allocator.py`) -/

/-- Standard junction-box sizes (models the `JBSize` enum). -/
inductive JBSize
  | small
  | standard
  | large
deriving DecidableEq, Repr

/-- Raw capacities per size (models `JB_CAPACITIES`). -/
def JB_CAPACITIES : JBSize → ℕ
  | .small => 12
  | .standard => 24
  | .large => 48

/-- Plan for allocating instruments across multiple JBs (models the
`JBAllocationPlan` dataclass; `jb_capacity` is the effective capacity after
the spare reduction, kept as an integer exactly as Python's `int()` result). -/
structure JBAllocationPlan where
  total_instruments : ℕ
  jb_size : JBSize
  jb_capacity : ℤ
  num_jbs_needed : ℕ
  instruments_per_jb : List ℕ
  spare_percent : ℚ
deriving DecidableEq, Repr

/-- The balanced distribution loop of `calculate_jb_allocation_plan`: each of
the `k` enclosures takes `ceil(remaining / enclosures_left)` instruments. -/
def splitEvenly : ℕ → ℕ → List ℕ
  | _, 0 => []
  | remaining, k + 1 =>
    let count := (remaining + k) / (k + 1)
    count :: splitEvenly (remaining - count) k

/-- Auto-selection of the JB size class by instrument count. -/
def autoSelectSize (instrument_count : ℕ) : JBSize :=
  if instrument_count ≤ 10 then .small
  else if instrument_count ≤ 40 then .standard
  else .large

/-- Size class used by the plan: the preferred size when given, else the
auto-selected class. -/
def selectJBSize (instrument_count : ℕ) (preferred_size : Option JBSize) : JBSize :=
  match preferred_size with
  | some s => s
  | none => autoSelectSize instrument_count

/-- Models `calculate_jb_allocation_plan`.  Returns `none` exactly when the
effective capacity is zero, where Python raises `ZeroDivisionError`. -/
def calculate_jb_allocation_plan (instrument_count : ℕ) (spare_percent : ℚ)
    (preferred_size : Option JBSize) : Option JBAllocationPlan :=
  let jb_size := selectJBSize instrument_count preferred_size
  let raw_capacity := JB_CAPACITIES jb_size
  let effective_capacity := intTrunc ((raw_capacity : ℚ) * (1 - spare_percent))
  if effective_capacity = 0 then none
  else
    let num_jbs := (⌈(instrument_count : ℚ) / (effective_capacity : ℚ)⌉).toNat
    some
      { total_instruments := instrument_count
        jb_size := jb_size
        jb_capacity := effective_capacity
        num_jbs_needed := num_jbs
        instruments_per_jb := splitEvenly instrument_count num_jbs
        spare_percent := spare_percent }

/-- Models `calculate_terminals_needed`: `(total_terminals, spare_count)`
with `spare_count = ceil(instrument_count * spare_percent)`. -/
def calculate_terminals_needed (instrument_count : ℕ) (spare_percent : ℚ) :
    ℕ × ℕ :=
  let spare_count := (⌈(instrument_count : ℚ) * spare_percent⌉).toNat
  (instrument_count + spare_count, spare_count)

/-- A single terminal-block row (models the `TerminalAllocation` dataclass). -/
structure TerminalAllocation where
  terminal_number : ℕ
  terminal_positive : String
  terminal_negative : String
  terminal_shield : Option String := none
  terminal_pair : Option String := none
  wire_color_positive : String := "WH"
  wire_color_negative : String := "BK"
  instrument_tag : Option String := none
  dcs_tag : Option String := none
  status : TerminalStatus := .spare
deriving DecidableEq, Repr

/-- A terminal block (models the `TerminalBlock` dataclass). -/
structure TerminalBlock where
  tag_number : String
  location : EquipmentLocation
  parent_equipment : String
  total_terminals : ℕ
  allocations : List TerminalAllocation := []
deriving DecidableEq, Repr

/-- Result of terminal allocation (models the `AllocationResult` dataclass). -/
structure AllocationResult where
  terminal_block : TerminalBlock
  allocations : List TerminalAllocation
  used_count : ℕ
  spare_count : ℕ
  total_count : ℕ
deriving DecidableEq, Repr

/-- Errors raised by the terminal allocator; each constructor carries the
data interpolated into the corresponding Python exception message.  The JB
capacity message recommends a number of enclosures and a size taken from the
allocation plan; the cabinet message instead reports the effective maximum
capacity with spare.  `jbCapacityPlanUndefined` stands for the
`ZeroDivisionError` escaping from the plan computed inside the error path. -/
inductive TerminalAllocationError
  | jbCapacity (total_instruments : ℕ) (max_terminals : ℕ)
      (recommended_num_jbs : ℕ) (recommended_size : JBSize)
  | jbCapacityPlanUndefined (total_instruments : ℕ) (max_terminals : ℕ)
  | cabinetCapacity (total_instruments : ℕ) (spare_percent : ℚ)
      (effective_max : ℤ)
deriving DecidableEq, Repr

/-- The numbers a caller can read out of an allocation error message. -/
def errorNumbers : TerminalAllocationError → List ℚ
  | .jbCapacity n maxT rec sz => [(n : ℚ), (maxT : ℚ), (rec : ℚ), (JB_CAPACITIES sz : ℚ)]
  | .jbCapacityPlanUndefined n maxT => [(n : ℚ), (maxT : ℚ)]
  | .cabinetCapacity n p effMax => [(n : ℚ), p * 100, (effMax : ℚ)]

/-- Capacity used by `allocate_jb_terminals`: the size's capacity when a
`jb_size` is given, else the `max_terminals` argument. -/
def resolveCapacity (max_terminals : ℕ) (jb_size : Option JBSize) : ℕ :=
  match jb_size with
  | some s => JB_CAPACITIES s
  | none => max_terminals

/-- Terminal label such as `"3+"`, `"3-"` or `"3S"`. -/
def numLabel (idx : ℕ) (suffix : String) : String := toString idx ++ suffix

/-- A used JB terminal row for instrument `inst` at position `idx`. -/
def jbUsedAllocation (idx : ℕ) (inst : Instrument) : TerminalAllocation :=
  { terminal_number := idx
    terminal_positive := numLabel idx "+"
    terminal_negative := numLabel idx "-"
    terminal_shield := some (numLabel idx "S")
    instrument_tag := some inst.tag_number
    dcs_tag := some inst.tag_number
    status := .used }

/-- A spare JB terminal row at position `idx`. -/
def jbSpareAllocation (idx : ℕ) : TerminalAllocation :=
  { terminal_number := idx
    terminal_positive := numLabel idx "+"
    terminal_negative := numLabel idx "-"
    terminal_shield := some (numLabel idx "S")
    instrument_tag := some "SPARE"
    status := .spare }

/-- The terminal fields written back onto an instrument by the JB loop. -/
def jbUpdateInstrument (idx : ℕ) (inst : Instrument) : Instrument :=
  { inst with
      jb_terminal_positive := some (numLabel idx "+")
      jb_terminal_negative := some (numLabel idx "-")
      jb_terminal_shield := some (numLabel idx "S") }

/-- Models `allocate_jb_terminals`.  The second component is the instrument
list as observable after the call: unchanged on the error path (the capacity
check precedes the mutation loop), updated with terminal assignments on
success. -/
def allocate_jb_terminals (instruments : List Instrument) (jb_tag : String)
    (spare_percent : ℚ) (max_terminals : ℕ) (jb_size : Option JBSize) :
    Except TerminalAllocationError AllocationResult × List Instrument :=
  let total_instruments := instruments.length
  let tn := calculate_terminals_needed total_instruments spare_percent
  let total_needed := tn.1
  let spare_count := tn.2
  let cap := resolveCapacity max_terminals jb_size
  if cap < total_needed then
    match calculate_jb_allocation_plan total_instruments spare_percent none with
    | some plan =>
      (.error (.jbCapacity total_instruments cap plan.num_jbs_needed plan.jb_size),
        instruments)
    | none =>
      (.error (.jbCapacityPlanUndefined total_instruments cap), instruments)
  else
    let used_allocs := (List.enumFrom 1 instruments).map fun pr => jbUsedAllocation pr.1 pr.2
    let spare_allocs := (List.range' (total_instruments + 1) spare_count).map jbSpareAllocation
    let allocations := used_allocs ++ spare_allocs
    let updated := (List.enumFrom 1 instruments).map fun pr => jbUpdateInstrument pr.1 pr.2
    (.ok
      { terminal_block :=
          { tag_number := "TB-" ++ jb_tag
            location := .junctionBox
            parent_equipment := jb_tag
            total_terminals := total_needed
            allocations := allocations }
        allocations := allocations
        used_count := total_instruments
        spare_count := spare_count
        total_count := total_needed },
      updated)

/-- A used cabinet terminal row for instrument `inst` at position `idx`. -/
def cabinetUsedAllocation (idx : ℕ) (inst : Instrument) : TerminalAllocation :=
  { terminal_number := idx
    terminal_pair := some ("PR" ++ toString idx)
    terminal_positive := numLabel idx "+"
    terminal_negative := numLabel idx "-"
    wire_color_positive := "WH"
    wire_color_negative := "BK"
    instrument_tag := some inst.tag_number
    dcs_tag := some inst.tag_number
    status := .used }

/-- A spare cabinet terminal row at position `idx`. -/
def cabinetSpareAllocation (idx : ℕ) : TerminalAllocation :=
  { terminal_number := idx
    terminal_pair := some ("PR" ++ toString idx)
    terminal_positive := numLabel idx "+"
    terminal_negative := numLabel idx "-"
    wire_color_positive := "WH"
    wire_color_negative := "BK"
    instrument_tag := some "SPARE"
    status := .spare }

/-- The terminal fields written back onto an instrument by the cabinet loop. -/
def cabinetUpdateInstrument (idx : ℕ) (inst : Instrument) : Instrument :=
  { inst with
      cabinet_terminal_pair := some ("PR" ++ toString idx)
      cabinet_terminal_positive := some (numLabel idx "+")
      cabinet_terminal_negative := some (numLabel idx "-") }

/-- Models `allocate_cabinet_terminals`; as for the JB variant, the second
component is the instrument list as observable after the call. -/
def allocate_cabinet_terminals (instruments : List Instrument)
    (cabinet_tag : String) (tb_tag : String) (spare_percent : ℚ)
    (max_pairs : ℕ) :
    Except TerminalAllocationError AllocationResult × List Instrument :=
  let total_instruments := instruments.length
  let tn := calculate_terminals_needed total_instruments spare_percent
  let total_needed := tn.1
  let spare_count := tn.2
  if max_pairs < total_needed then
    (.error
      (.cabinetCapacity total_instruments spare_percent
        (intTrunc ((max_pairs : ℚ) * (1 - spare_percent)))),
      instruments)
  else
    let used_allocs := (List.enumFrom 1 instruments).map fun pr => cabinetUsedAllocation pr.1 pr.2
    let spare_allocs := (List.range' (total_instruments + 1) spare_count).map cabinetSpareAllocation
    let allocations := used_allocs ++ spare_allocs
    let updated := (List.enumFrom 1 instruments).map fun pr => cabinetUpdateInstrument pr.1 pr.2
    (.ok
      { terminal_block :=
          { tag_number := tb_tag
            location := .marshallingCabinet
            parent_equipment := cabinet_tag
            total_terminals := total_needed
            allocations := allocations }
        allocations := allocations
        used_count := total_instruments
        spare_count := spare_count
        total_count := total_needed },
      updated)

/-- Shape of a successful JB allocation. -/
lemma allocate_jb_terminals_ok_shape (instruments : List Instrument)
    (jb_tag : String) (p : ℚ) (maxT : ℕ) (szo : Option JBSize)
    (res : AllocationResult) (upd : List Instrument)
    (h : allocate_jb_terminals instruments jb_tag p maxT szo = (.ok res, upd)) :
    res.used_count = instruments.length ∧
      res.spare_count = (⌈(instruments.length : ℚ) * p⌉).toNat ∧
      res.total_count = instruments.length + res.spare_count ∧
      res.allocations =
        (List.enumFrom 1 instruments).map (fun pr => jbUsedAllocation pr.1 pr.2) ++
          (List.range' (instruments.length + 1) res.spare_count).map jbSpareAllocation := by
  unfold allocate_jb_terminals at h
  simp only [calculate_terminals_needed] at h
  split at h
  · split at h <;> simp at h
  · rw [Prod.mk.injEq] at h
    obtain ⟨hres, _⟩ := h
    injection hres with hres
    subst hres
    exact ⟨rfl, rfl, rfl, rfl⟩

/-- Shape of a successful cabinet allocation. -/
lemma allocate_cabinet_terminals_ok_shape (instruments : List Instrument)
    (cabinet_tag tb_tag : String) (p : ℚ) (maxPairs : ℕ)
    (res : AllocationResult) (upd : List Instrument)
    (h : allocate_cabinet_terminals instruments cabinet_tag tb_tag p maxPairs =
      (.ok res, upd)) :
    res.used_count = instruments.length ∧
      res.spare_count = (⌈(instruments.length : ℚ) * p⌉).toNat ∧
      res.total_count = instruments.length + res.spare_count ∧
      res.allocations =
        (List.enumFrom 1 instruments).map (fun pr => cabinetUsedAllocation pr.1 pr.2) ++
          (List.range' (instruments.length + 1) res.spare_count).map cabinetSpareAllocation := by
  unfold allocate_cabinet_terminals at h
  simp only [calculate_terminals_needed] at h
  split at h
  · simp at h
  · rw [Prod.mk.injEq] at h
    obtain ⟨hres, _⟩ := h
    injection hres with hres
    subst hres
    exact ⟨rfl, rfl, rfl, rfl⟩

/-- Specification-side description of a correct allocation layout: counts
match the spare formula, terminal numbers are 1..total in order, the first
used_count rows carry the instruments in input order with status used, the
remaining rows are SPARE entries. -/
def AllocationLayout (instruments : List Instrument) (p : ℚ)
    (res : AllocationResult) : Prop :=
  res.used_count = instruments.length ∧
    (res.spare_count : ℤ) = ⌈(instruments.length : ℚ) * p⌉ ∧
    res.total_count = res.used_count + res.spare_count ∧
    res.allocations.map (fun a => a.terminal_number) = List.range' 1 res.total_count ∧
    (res.allocations.take res.used_count).map (fun a => (a.instrument_tag, a.status)) =
      instruments.map (fun i => (some i.tag_number, TerminalStatus.used)) ∧
    (res.allocations.drop res.used_count).map (fun a => (a.instrument_tag, a.status)) =
      List.replicate res.spare_count (some "SPARE", TerminalStatus.spare)

/-- Generic layout argument shared by the JB and cabinet allocators. -/
lemma layout_of_shape (instruments : List Instrument) (s : ℕ)
    (mkUsed : ℕ × Instrument → TerminalAllocation) (mkSpare : ℕ → TerminalAllocation)
    (hUn : ∀ pr : ℕ × Instrument, (mkUsed pr).terminal_number = pr.1)
    (hUt : ∀ pr : ℕ × Instrument,
      ((mkUsed pr).instrument_tag, (mkUsed pr).status) = (some pr.2.tag_number, .used))
    (hSn : ∀ i, (mkSpare i).terminal_number = i)
    (hSt : ∀ i, ((mkSpare i).instrument_tag, (mkSpare i).status) = (some "SPARE", .spare)) :
    ((List.enumFrom 1 instruments).map mkUsed ++
        (List.range' (instruments.length + 1) s).map mkSpare).map
        (fun a => a.terminal_number) = List.range' 1 (instruments.length + s) ∧
    (((List.enumFrom 1 instruments).map mkUsed ++
        (List.range' (instruments.length + 1) s).map mkSpare).take instruments.length).map
        (fun a => (a.instrument_tag, a.status)) =
      instruments.map (fun i => (some i.tag_number, TerminalStatus.used)) ∧
    (((List.enumFrom 1 instruments).map mkUsed ++
        (List.range' (instruments.length + 1) s).map mkSpare).drop instruments.length).map
        (fun a => (a.instrument_tag, a.status)) =
      List.replicate s (some "SPARE", TerminalStatus.spare) := by
  have hlen : ((List.enumFrom 1 instruments).map mkUsed).length = instruments.length := by
    simp
  refine ⟨?_, ?_, ?_⟩
  · rw [List.map_append, List.map_map, List.map_map]
    have h1 : (fun a => TerminalAllocation.terminal_number a) ∘ mkUsed = Prod.fst :=
      funext fun pr => hUn pr
    have h2 : (fun a => TerminalAllocation.terminal_number a) ∘ mkSpare = fun i => i :=
      funext fun i => hSn i
    rw [h1, h2, List.enumFrom_map_fst, List.map_id']
    have := List.range'_append_1 1 instruments.length s
    rw [Nat.add_comm 1 instruments.length] at this
    rw [this, Nat.add_comm s instruments.length]
  · rw [List.take_left' hlen, List.map_map]
    have h1 : (fun a => (a.instrument_tag, a.status)) ∘ mkUsed =
        (fun i => (some i.tag_number, TerminalStatus.used)) ∘ Prod.snd :=
      funext fun pr => hUt pr
    rw [h1, ← List.map_map, List.enumFrom_map_snd]
  · rw [List.drop_left' hlen, List.map_map]
    have h1 : (fun a => (a.instrument_tag, a.status)) ∘ mkSpare =
        fun _ => (some "SPARE", TerminalStatus.spare) :=
      funext fun i => hSt i
    rw [h1, List.map_const', List.length_range']

/-- C1: whenever `allocate_jb_terminals` (or `allocate_cabinet_terminals`)
succeeds, the result counts satisfy used = instrument count,
spare = ceil(count * spare_percent), total = used + spare, terminal numbers
run 1..total in order, rows 1..used hold the instruments in input order with
status used, and rows used+1..total are SPARE entries with status spare. -/
theorem allocation_layout (instruments : List Instrument)
    (jb_tag cabinet_tag tb_tag : String) (p : ℚ) (maxT maxPairs : ℕ)
    (szo : Option JBSize) (hp : 0 ≤ p) :
    (∀ res upd, allocate_jb_terminals instruments jb_tag p maxT szo = (.ok res, upd) →
      AllocationLayout instruments p res) ∧
    (∀ res upd,
      allocate_cabinet_terminals instruments cabinet_tag tb_tag p maxPairs =
        (.ok res, upd) →
      AllocationLayout instruments p res) := by
  have hcast : (((⌈(instruments.length : ℚ) * p⌉).toNat : ℤ)) =
      ⌈(instruments.length : ℚ) * p⌉ :=
    Int.toNat_of_nonneg (Int.ceil_nonneg (by positivity))
  constructor
  · intro res upd h
    obtain ⟨h1, h2, h3, h4⟩ :=
      allocate_jb_terminals_ok_shape instruments jb_tag p maxT szo res upd h
    obtain ⟨g1, g2, g3⟩ :=
      layout_of_shape instruments res.spare_count
        (fun pr => jbUsedAllocation pr.1 pr.2) jbSpareAllocation
        (fun _ => rfl) (fun _ => rfl) (fun _ => rfl) (fun _ => rfl)
    refine ⟨h1, by rw [h2]; exact hcast, by omega, ?_, ?_, ?_⟩
    · rw [h4, g1, h3]
    · rw [h4, h1, g2]
    · rw [h4, h1, g3]
  · intro res upd h
    obtain ⟨h1, h2, h3, h4⟩ :=
      allocate_cabinet_terminals_ok_shape instruments cabinet_tag tb_tag p maxPairs
        res upd h
    obtain ⟨g1, g2, g3⟩ :=
      layout_of_shape instruments res.spare_count
        (fun pr => cabinetUsedAllocation pr.1 pr.2) cabinetSpareAllocation
        (fun _ => rfl) (fun _ => rfl) (fun _ => rfl) (fun _ => rfl)
    refine ⟨h1, by rw [h2]; exact hcast, by omega, ?_, ?_, ?_⟩
    · rw [h4, g1, h3]
    · rw [h4, h1, g2]
    · rw [h4, h1, g3]

/-- A sample instrument used in concrete runs. -/
def demoInstrument (tag : String) (st : Option SignalType) : Instrument :=
  { tag_number := tag
    instrument_type := "TIT"
    service := "Demo service"
    area := "601"
    signal_type := st }

/-- Two sample instruments. -/
def demoPair : List Instrument :=
  [demoInstrument "PP01-601-TIT0001" (some .analogInput),
    demoInstrument "PP01-601-TIT0002" (some .analogInput)]

/-- Twenty-five sample analog instruments. -/
def demo25 : List Instrument :=
  (List.range 25).map fun k =>
    demoInstrument ("PP01-601-TIT" ++ toString k) (some .analogInput)

/-- Concrete ceiling: spare terminals for 2 instruments at 20%. -/
lemma ceil_2_5 : (⌈(2 : ℚ) / 5⌉).toNat = 1 := by
  have h2 : (⌈(2 : ℚ) / 5⌉) = 1 := by
    rw [Int.ceil_eq_iff]
    constructor
    · norm_num
    · norm_num
  rw [h2]; rfl

/-- Concrete truncation: effective cabinet capacity for 20 pairs at 20%. -/
lemma trunc_16 : intTrunc (16 : ℚ) = 16 := by
  rw [intTrunc, if_neg (by norm_num)]
  exact Int.floor_intCast 16

/-- Concrete truncation: effective capacity of a standard JB at 20% spare. -/
lemma trunc_96_5 : intTrunc ((96 : ℚ) / 5) = 19 := by
  rw [intTrunc, if_neg (by norm_num)]
  rw [Int.floor_eq_iff]
  constructor
  · norm_num
  · norm_num

/-- Concrete ceiling: enclosures for 25 instruments at capacity 19. -/
lemma ceil_25_19 : (⌈(25 : ℚ) / 19⌉).toNat = 2 := by
  have h2 : (⌈(25 : ℚ) / 19⌉) = 2 := by
    rw [Int.ceil_eq_iff]
    constructor
    · norm_num
    · norm_num
  rw [h2]; rfl

/-- The allocation plan for 25 instruments at 20% spare. -/
def demoPlan25 : JBAllocationPlan :=
  { total_instruments := 25
    jb_size := .standard
    jb_capacity := 19
    num_jbs_needed := 2
    instruments_per_jb := [13, 12]
    spare_percent := 1/5 }

/-- Concrete plan: 25 instruments at 20% spare give 2 standard enclosures
holding 13 and 12 instruments. -/
lemma plan_25 :
    calculate_jb_allocation_plan 25 (1/5) none = some demoPlan25 := by
  unfold demoPlan25
  unfold calculate_jb_allocation_plan selectJBSize autoSelectSize
  norm_num [JB_CAPACITIES, trunc_96_5, ceil_25_19]
  decide

/-- Concrete run: the demo pair fits in a single large JB. -/
lemma demoPair_jb_isOk :
    (allocate_jb_terminals demoPair "PP01-601-IAJB0001" (1/5) 48 none).1.isOk = true := by
  unfold allocate_jb_terminals
  norm_num [demoPair, calculate_terminals_needed, ceil_2_5, resolveCapacity,
    Except.isOk, Except.toBool]

/-- Concrete run: the demo pair also fits in one cabinet terminal block. -/
lemma demoPair_cabinet_isOk :
    (allocate_cabinet_terminals demoPair "PP01-601-ICP001" "TB601-I0001" (1/5)
        20).1.isOk = true := by
  unfold allocate_cabinet_terminals
  norm_num [demoPair, calculate_terminals_needed, ceil_2_5, Except.isOk, Except.toBool]

/-- Witness for C1: concrete two-instrument runs, spare percent 1/5. -/
theorem allocation_layout_witness :
    0 ≤ (1/5 : ℚ) ∧
      (allocate_jb_terminals demoPair "PP01-601-IAJB0001" (1/5) 48 none).1.isOk = true ∧
      (allocate_cabinet_terminals demoPair "PP01-601-ICP001" "TB601-I0001" (1/5)
          20).1.isOk = true ∧
      ((∀ res upd,
          allocate_jb_terminals demoPair "PP01-601-IAJB0001" (1/5) 48 none =
            (.ok res, upd) →
          AllocationLayout demoPair (1/5) res) ∧
        (∀ res upd,
          allocate_cabinet_terminals demoPair "PP01-601-ICP001" "TB601-I0001" (1/5) 20 =
            (.ok res, upd) →
          AllocationLayout demoPair (1/5) res)) :=
  ⟨by norm_num, demoPair_jb_isOk, demoPair_cabinet_isOk,
    allocation_layout demoPair "PP01-601-IAJB0001" "PP01-601-ICP001" "TB601-I0001"
      (1/5) 48 20 none (by norm_num)⟩

/-- Concrete run: 25 instruments on a 20-pair cabinet block fail with the
capacity error whose message reports the instrument count, the spare percent
and the effective maximum capacity. -/
lemma demo25_cabinet_error :
    (allocate_cabinet_terminals demo25 "PP01-601-ICP001" "TB601-I0001" (1/5) 20).1 =
      .error (.cabinetCapacity 25 (1/5) 16) := by
  unfold allocate_cabinet_terminals
  norm_num [demo25, calculate_terminals_needed, trunc_16, show Int.toNat 5 = 5 from rfl]

/-- C10: when either allocator raises the capacity error, the instrument list
observable after the call is exactly the input list: the capacity check
precedes the mutation loop, so a failed call assigns no terminal fields. -/
theorem error_no_mutation (instruments : List Instrument)
    (jb_tag cabinet_tag tb_tag : String) (p : ℚ) (maxT maxPairs : ℕ)
    (szo : Option JBSize) :
    (∀ e, (allocate_jb_terminals instruments jb_tag p maxT szo).1 = .error e →
      (allocate_jb_terminals instruments jb_tag p maxT szo).2 = instruments) ∧
    (∀ e,
      (allocate_cabinet_terminals instruments cabinet_tag tb_tag p maxPairs).1 =
        .error e →
      (allocate_cabinet_terminals instruments cabinet_tag tb_tag p maxPairs).2 =
        instruments) := by
  constructor
  · intro e he
    unfold allocate_jb_terminals at he ⊢
    simp only [] at he ⊢
    split at he
    next hcond =>
      rw [if_pos hcond]
      split
      all_goals rfl
    next _ => simp at he
  · intro e he
    unfold allocate_cabinet_terminals at he ⊢
    simp only [] at he ⊢
    split at he
    next hcond => rw [if_pos hcond]
    next _ => simp at he

/-- Witness for C10: the failing 25-instrument cabinet run leaves the
instrument list unchanged. -/
theorem error_no_mutation_witness :
    (allocate_cabinet_terminals demo25 "PP01-601-ICP001" "TB601-I0001" (1/5) 20).2 =
      demo25 :=
  (error_no_mutation demo25 "PP01-601-IAJB0001" "PP01-601-ICP001" "TB601-I0001"
      (1/5) 48 20 none).2 (.cabinetCapacity 25 (1/5) 16) demo25_cabinet_error

/-- C4 (amended): both allocators raise the capacity error exactly when
instrument_count + ceil(instrument_count * spare_percent) exceeds the
capacity (the JB capacity resp. max_pairs).  The JB error message states the
recommended number of enclosures from the multi-enclosure plan; the cabinet
error message instead states the effective maximum capacity with spare,
not an enclosure count. -/
theorem capacity_error_condition (instruments : List Instrument)
    (jb_tag cabinet_tag tb_tag : String) (p : ℚ) (maxT maxPairs : ℕ)
    (szo : Option JBSize) (plan : JBAllocationPlan)
    (hplan : calculate_jb_allocation_plan instruments.length p none = some plan) :
    ((allocate_jb_terminals instruments jb_tag p maxT szo).1 =
        .error (.jbCapacity instruments.length (resolveCapacity maxT szo)
          plan.num_jbs_needed plan.jb_size) ↔
      resolveCapacity maxT szo <
        instruments.length + (⌈(instruments.length : ℚ) * p⌉).toNat) ∧
    ((∃ e, (allocate_jb_terminals instruments jb_tag p maxT szo).1 = .error e) ↔
      resolveCapacity maxT szo <
        instruments.length + (⌈(instruments.length : ℚ) * p⌉).toNat) ∧
    ((∃ e,
        (allocate_cabinet_terminals instruments cabinet_tag tb_tag p maxPairs).1 =
          .error e) ↔
      maxPairs < instruments.length + (⌈(instruments.length : ℚ) * p⌉).toNat) ∧
    (maxPairs < instruments.length + (⌈(instruments.length : ℚ) * p⌉).toNat →
      (allocate_cabinet_terminals instruments cabinet_tag tb_tag p maxPairs).1 =
        .error (.cabinetCapacity instruments.length p
          (intTrunc ((maxPairs : ℚ) * (1 - p))))) := by
  refine ⟨?_, ?_, ?_, ?_⟩
  · unfold allocate_jb_terminals
    simp only [calculate_terminals_needed]
    split
    next hcond =>
      rw [hplan]
      exact iff_of_true rfl hcond
    next hcond =>
      exact iff_of_false (by simp) hcond
  · unfold allocate_jb_terminals
    simp only [calculate_terminals_needed]
    split
    next hcond =>
      rw [hplan]
      exact iff_of_true ⟨_, rfl⟩ hcond
    next hcond =>
      refine iff_of_false ?_ hcond
      rintro ⟨e, he⟩
      simp at he
  · unfold allocate_cabinet_terminals
    simp only [calculate_terminals_needed]
    split
    next hcond =>
      exact iff_of_true ⟨_, rfl⟩ hcond
    next hcond =>
      refine iff_of_false ?_ hcond
      rintro ⟨e, he⟩
      simp at he
  · intro hlt
    unfold allocate_cabinet_terminals
    simp only [calculate_terminals_needed]
    rw [if_pos hlt]

/-- Length of the 25-instrument demo list. -/
lemma demo25_length : demo25.length = 25 := by simp [demo25]

/-- Counterexample to C4 as stated: the cabinet capacity error raised for 25
instruments on a 20-pair terminal block carries the instrument count, the
spare percent and the effective maximum capacity, but not the minimum number
of enclosures required (which the plan computes as 2). -/
theorem capacity_message_counterexample :
    (allocate_cabinet_terminals demo25 "PP01-601-ICP001" "TB601-I0001" (1/5) 20).1 =
        .error (.cabinetCapacity 25 (1/5) 16) ∧
      (calculate_jb_allocation_plan 25 (1/5) none).map (fun pl => pl.num_jbs_needed) =
        some 2 ∧
      (2 : ℚ) ∉ errorNumbers (.cabinetCapacity 25 (1/5) 16) := by
  refine ⟨demo25_cabinet_error, ?_, ?_⟩
  · rw [plan_25]; rfl
  · simp only [errorNumbers, List.mem_cons, List.mem_singleton]
    push_neg
    refine ⟨by norm_num, by norm_num, by norm_num, by norm_num⟩

/-- Witness for the amended C4: the 25-instrument cabinet run fails and its
error carries the effective maximum capacity. -/
theorem capacity_error_condition_witness :
    calculate_jb_allocation_plan demo25.length (1/5) none = some demoPlan25 ∧
      20 < demo25.length + (⌈(demo25.length : ℚ) * (1/5)⌉).toNat ∧
      (allocate_cabinet_terminals demo25 "PP01-601-ICP001" "TB601-I0001" (1/5) 20).1 =
        .error (.cabinetCapacity demo25.length (1/5)
          (intTrunc ((20 : ℚ) * (1 - 1/5)))) := by
  have hlen : demo25.length = 25 := demo25_length
  have hplan :
      calculate_jb_allocation_plan demo25.length (1/5) none = some demoPlan25 := by
    rw [hlen]; exact plan_25
  have hcond : 20 < demo25.length + (⌈(demo25.length : ℚ) * (1/5)⌉).toNat := by
    rw [hlen]
    norm_num [show Int.toNat 5 = 5 from rfl]
  exact ⟨hplan, hcond,
    (capacity_error_condition demo25 "PP01-601-IAJB0001" "PP01-601-ICP001"
        "TB601-I0001" (1/5) 48 20 none _ hplan).2.2.2 hcond⟩

/-- Closed form of the balanced distribution loop: with `k ≥ 1` enclosures it
produces `n % k` counts of `n / k + 1` followed by `k - n % k` counts of
`n / k`. -/
lemma splitEvenly_closed (k : ℕ) (hk : 1 ≤ k) :
    ∀ n, splitEvenly n k =
      List.replicate (n % k) (n / k + 1) ++ List.replicate (k - n % k) (n / k) := by
  induction k with
  | zero => omega
  | succ k ih =>
    intro n
    rw [splitEvenly]
    rcases Nat.eq_zero_or_pos k with hk0 | hkpos
    · subst hk0
      simp [splitEvenly, Nat.mod_one]
    · set q := n / (k + 1) with hq
      set r := n % (k + 1) with hr
      have hdm : (k + 1) * q + r = n := Nat.div_add_mod n (k + 1)
      have hrlt : r < k + 1 := Nat.mod_lt _ (by omega)
      rcases Nat.eq_zero_or_pos r with h0 | hpos
      · have hcount : (n + k) / (k + 1) = q := by
          have hn : n = (k + 1) * q := by omega
          rw [hn, Nat.mul_add_div (by omega), Nat.div_eq_of_lt (by omega)]
          omega
        rw [hcount]
        have hrem : n - q = k * q := by
          have : (k + 1) * q = k * q + q := by ring
          omega
        rw [hrem, ih hkpos (k * q)]
        have hmod : k * q % k = 0 := Nat.mul_mod_right k q
        have hdiv : k * q / k = q := Nat.mul_div_cancel_left q (by omega)
        rw [hmod, hdiv, h0]
        simp [List.replicate_succ]
      · have hcount : (n + k) / (k + 1) = q + 1 := by
          have hn : n = (k + 1) * q + r := by omega
          have hstep : (r + k) / (k + 1) = 1 :=
            Nat.div_eq_of_lt_le (by omega) (by omega)
          rw [hn, Nat.add_assoc, Nat.mul_add_div (by omega), hstep]
        rw [hcount]
        have hrem : n - (q + 1) = k * q + (r - 1) := by
          have : (k + 1) * q = k * q + q := by ring
          omega
        rw [hrem, ih hkpos (k * q + (r - 1))]
        have hmod : (k * q + (r - 1)) % k = r - 1 := by
          rw [Nat.mul_add_mod]
          exact Nat.mod_eq_of_lt (by omega)
        have hdiv : (k * q + (r - 1)) / k = q := by
          rw [Nat.mul_add_div (by omega), Nat.div_eq_of_lt (by omega)]
          omega
        obtain ⟨rp, hrp⟩ : ∃ rp, r = rp + 1 := ⟨r - 1, by omega⟩
        rw [hmod, hdiv, hrp]
        simp only [Nat.add_sub_cancel]
        rw [List.replicate_succ, List.cons_append]
        have h2 : k + 1 - (rp + 1) = k - rp := by omega
        rw [h2]

/-- A constant list is pairwise ordered by any reflexive-at-the-point relation. -/
lemma pairwise_replicate_self {α : Type} {R : α → α → Prop} {a : α} (h : R a a)
    (m : ℕ) : (List.replicate m a).Pairwise R := by
  induction m with
  | zero => simp
  | succ m ih =>
    rw [List.replicate_succ, List.pairwise_cons]
    exact ⟨fun b hb => by rw [List.eq_of_mem_replicate hb]; exact h, ih⟩

/-- Sum of the balanced distribution. -/
lemma splitEvenly_sum (n k : ℕ) (hk : 1 ≤ k) : (splitEvenly n k).sum = n := by
  rw [splitEvenly_closed k hk n, List.sum_append, List.sum_replicate,
    List.sum_replicate, smul_eq_mul, smul_eq_mul]
  have h1 : n % k < k := Nat.mod_lt _ (by omega)
  have h2 : (n % k) * (n / k) ≤ k * (n / k) := Nat.mul_le_mul_right _ (by omega)
  have h3 : (k - n % k) * (n / k) = k * (n / k) - (n % k) * (n / k) :=
    Nat.sub_mul k (n % k) (n / k)
  have h4 : k * (n / k) + n % k = n := Nat.div_add_mod n k
  rw [Nat.mul_add, Nat.mul_one, h3]
  omega

/-- Every count in the balanced distribution is `n / k` or `n / k + 1`. -/
lemma splitEvenly_mem (n k : ℕ) (hk : 1 ≤ k) :
    ∀ x ∈ splitEvenly n k, x = n / k ∨ x = n / k + 1 := by
  intro x hx
  rw [splitEvenly_closed k hk n, List.mem_append] at hx
  rcases hx with hx | hx
  · exact Or.inr (List.eq_of_mem_replicate hx)
  · exact Or.inl (List.eq_of_mem_replicate hx)

/-- The balanced distribution is non-increasing. -/
lemma splitEvenly_pairwise (n k : ℕ) (hk : 1 ≤ k) :
    (splitEvenly n k).Pairwise (fun a b => b ≤ a) := by
  rw [splitEvenly_closed k hk n]
  rw [List.pairwise_append]
  refine ⟨@pairwise_replicate_self ℕ (fun a b => b ≤ a) _ le_rfl _,
    @pairwise_replicate_self ℕ (fun a b => b ≤ a) _ le_rfl _, ?_⟩
  intro x hx y hy
  rw [List.eq_of_mem_replicate hx, List.eq_of_mem_replicate hy]
  omega

/-- Extraction of the fields of a successful allocation plan. -/
lemma calculate_jb_allocation_plan_some (n : ℕ) (p : ℚ) (pref : Option JBSize)
    (plan : JBAllocationPlan)
    (hplan : calculate_jb_allocation_plan n p pref = some plan) :
    plan.total_instruments = n ∧
      plan.jb_size = selectJBSize n pref ∧
      plan.jb_capacity =
        intTrunc ((JB_CAPACITIES plan.jb_size : ℚ) * (1 - p)) ∧
      plan.jb_capacity ≠ 0 ∧
      plan.num_jbs_needed = (⌈(n : ℚ) / (plan.jb_capacity : ℚ)⌉).toNat ∧
      plan.instruments_per_jb = splitEvenly n plan.num_jbs_needed ∧
      plan.spare_percent = p := by
  unfold calculate_jb_allocation_plan at hplan
  simp only [] at hplan
  split at hplan
  · simp at hplan
  next hcap =>
    injection hplan with hplan
    subst hplan
    exact ⟨rfl, rfl, rfl, hcap, rfl, rfl, rfl⟩

/-- C2: for instrument_count ≥ 1 and an effective capacity ≥ 1, the plan's
per-enclosure counts sum to the instrument count, differ pairwise by at most
one, and are non-increasing from the first enclosure to the last. -/
theorem plan_balanced (n : ℕ) (p : ℚ) (pref : Option JBSize)
    (plan : JBAllocationPlan) (hn : 1 ≤ n)
    (hplan : calculate_jb_allocation_plan n p pref = some plan)
    (hcap : 1 ≤ plan.jb_capacity) :
    plan.instruments_per_jb.sum = n ∧
      (∀ a ∈ plan.instruments_per_jb, ∀ b ∈ plan.instruments_per_jb, a ≤ b + 1) ∧
      plan.instruments_per_jb.Pairwise (fun a b => b ≤ a) := by
  obtain ⟨-, -, -, -, hnum, hlist, -⟩ :=
    calculate_jb_allocation_plan_some n p pref plan hplan
  have hkpos : 1 ≤ plan.num_jbs_needed := by
    rw [hnum]
    have hq : (0 : ℚ) < (n : ℚ) / (plan.jb_capacity : ℚ) := by
      apply div_pos
      · exact_mod_cast (by omega : 0 < n)
      · exact_mod_cast (by omega : (0 : ℤ) < plan.jb_capacity)
    have hceil : 0 < ⌈(n : ℚ) / (plan.jb_capacity : ℚ)⌉ := Int.lt_ceil.mpr (by
      push_cast
      exact hq)
    omega
  refine ⟨?_, ?_, ?_⟩
  · rw [hlist]; exact splitEvenly_sum n _ hkpos
  · rw [hlist]
    intro a ha b hb
    rcases splitEvenly_mem n _ hkpos a ha with h | h <;>
      rcases splitEvenly_mem n _ hkpos b hb with h2 | h2 <;> omega
  · rw [hlist]; exact splitEvenly_pairwise n _ hkpos

/-- Witness for C2: the plan for 25 instruments at 20% spare. -/
theorem plan_balanced_witness :
    1 ≤ 25 ∧ 1 ≤ demoPlan25.jb_capacity ∧
      (demoPlan25.instruments_per_jb.sum = 25 ∧
        (∀ a ∈ demoPlan25.instruments_per_jb, ∀ b ∈ demoPlan25.instruments_per_jb,
          a ≤ b + 1) ∧
        demoPlan25.instruments_per_jb.Pairwise (fun a b => b ≤ a)) :=
  ⟨by norm_num, by norm_num [demoPlan25],
    plan_balanced 25 (1/5) none demoPlan25 (by norm_num) plan_25
      (by norm_num [demoPlan25])⟩

/-- C5: with no preferred size the plan auto-selects small for ≤ 10,
standard for ≤ 40, else large; the effective capacity is
floor(raw_capacity * (1 - spare_percent)) and the enclosure count is
ceil(instrument_count / effective_capacity); in particular 25 instruments at
20% spare give the standard size, capacity 19, 2 enclosures and
distribution [13, 12]. -/
theorem plan_formulas (n : ℕ) (p : ℚ) (hp0 : 0 ≤ p) (hp1 : p ≤ 1) :
    (∀ plan, calculate_jb_allocation_plan n p none = some plan →
      plan.jb_size =
          (if n ≤ 10 then JBSize.small else if n ≤ 40 then .standard else .large) ∧
        plan.jb_capacity = ⌊(JB_CAPACITIES plan.jb_size : ℚ) * (1 - p)⌋ ∧
        (plan.num_jbs_needed : ℤ) = ⌈(n : ℚ) / (plan.jb_capacity : ℚ)⌉) ∧
      (calculate_jb_allocation_plan 25 (1/5) none = some demoPlan25 ∧
        demoPlan25.jb_size = .standard ∧ demoPlan25.jb_capacity = 19 ∧
        demoPlan25.num_jbs_needed = 2 ∧ demoPlan25.instruments_per_jb = [13, 12]) := by
  constructor
  · intro plan hplan
    obtain ⟨-, hsize, hcap, hcap0, hnum, -, -⟩ :=
      calculate_jb_allocation_plan_some n p none plan hplan
    have harg : (0 : ℚ) ≤ (JB_CAPACITIES plan.jb_size : ℚ) * (1 - p) := by
      apply mul_nonneg
      · positivity
      · linarith
    have htrunc : intTrunc ((JB_CAPACITIES plan.jb_size : ℚ) * (1 - p)) =
        ⌊(JB_CAPACITIES plan.jb_size : ℚ) * (1 - p)⌋ := by
      rw [intTrunc, if_neg (by push_neg; exact harg)]
    refine ⟨hsize, by rw [hcap, htrunc], ?_⟩
    have hcappos : 0 < plan.jb_capacity := by
      rcases lt_or_le 0 plan.jb_capacity with h | h
      · exact h
      · exfalso
        apply hcap0
        have hfl : 0 ≤ ⌊(JB_CAPACITIES plan.jb_size : ℚ) * (1 - p)⌋ :=
          Int.floor_nonneg.mpr harg
        rw [hcap, htrunc] at h ⊢
        omega
    have hceilnn : 0 ≤ ⌈(n : ℚ) / (plan.jb_capacity : ℚ)⌉ := by
      apply Int.ceil_nonneg
      apply div_nonneg
      · positivity
      · exact_mod_cast le_of_lt hcappos
    rw [hnum]
    exact Int.toNat_of_nonneg hceilnn
  · exact ⟨plan_25, rfl, rfl, rfl, rfl⟩

/-- Witness for C5 at p = 1/5. -/
theorem plan_formulas_witness :
    0 ≤ (1/5 : ℚ) ∧ (1/5 : ℚ) ≤ 1 ∧
      (calculate_jb_allocation_plan 25 (1/5) none = some demoPlan25 ∧
        demoPlan25.jb_size = .standard ∧ demoPlan25.jb_capacity = 19 ∧
        demoPlan25.num_jbs_needed = 2 ∧ demoPlan25.instruments_per_jb = [13, 12]) :=
  ⟨by norm_num, by norm_num,
    (plan_formulas 25 (1/5) (by norm_num) (by norm_num)).2⟩

/-! ## I/O card allocator (`src/engine/io_allocator.py`) -/

/-- Control system types (models `ControlSystem` in `src/models/io_card.py`). -/
inductive ControlSystem
  | DCS
  | SIS
  | RTU
deriving DecidableEq, Repr

/-- I/O signal types (models `IOType`). -/
inductive IOType
  | AI
  | AO
  | DI
  | DO
deriving DecidableEq, Repr

/-- An I/O module catalog entry (models the `IOModule` dataclass fields the
allocator reads). -/
structure IOModule where
  model : String
  io_type : IOType
  channels : ℕ
  signal_type : String
  control_system : Option ControlSystem := none
deriving DecidableEq, Repr

/-- One channel row of a card's assignment map (models the per-channel dict
with keys tag, service, type, status; `itype` stands for the `type` key). -/
structure ChannelAssignment where
  tag : String
  service : String
  itype : String
  status : String
deriving DecidableEq, Repr

/-- An allocated I/O card (models the `IOCard` dataclass; the assignment map
is kept as the list of (channel, row) pairs in insertion order 1..channels). -/
structure IOCard where
  module : IOModule
  card_number : ℕ
  system : ControlSystem
  location : String
  total_channels : ℕ
  used_channels : ℕ
  spare_channels : ℕ
  channel_assignments : List (ℕ × ChannelAssignment)
deriving DecidableEq, Repr

/-- Models `IOAllocator.calculate_cards_needed`:
`(num_cards, channels_used, spare_channels)`. -/
def calculate_cards_needed (signal_count : ℕ) (channels_per_card : ℕ) (p : ℚ) :
    ℕ × ℕ × ℕ :=
  if signal_count = 0 then (0, 0, 0)
  else
    let channels_with_spare := (⌈(signal_count : ℚ) * (1 + p)⌉).toNat
    let num_cards :=
      (⌈(channels_with_spare : ℚ) / (channels_per_card : ℚ)⌉).toNat
    (num_cards, signal_count, num_cards * channels_per_card - signal_count)

/-- The channel row written for an assigned instrument. -/
def usedChannelAssignment (inst : Instrument) : ChannelAssignment :=
  { tag := inst.tag_number
    service := inst.service
    itype := inst.instrument_type
    status := "USED" }

/-- The channel row written for a spare channel. -/
def spareChannelAssignment : ChannelAssignment :=
  { tag := "SPARE", service := "", itype := "", status := "SPARE" }

/-- The assignment map of card `i` (0-based): channels 1..c, where the
channel at global position `i * c + (ch - 1)` takes the instrument at that
index of the group list, or SPARE once the list is exhausted. -/
def cardChannelAssignments (instruments : List Instrument) (c i : ℕ) :
    List (ℕ × ChannelAssignment) :=
  (List.range' 1 c).map fun ch =>
    match instruments.get? (i * c + (ch - 1)) with
    | some inst => (ch, usedChannelAssignment inst)
    | none => (ch, spareChannelAssignment)

/-- Models `IOAllocator.allocate_cards_for_io_type` from the point where the
module is known (the catalog lookup upstream always yields a module, falling
back to a generic one).  Returns `none` when the module has zero channels,
where Python raises `ZeroDivisionError`. -/
def allocate_cards_for_io_type (module : IOModule) (system : ControlSystem)
    (signal_count : ℕ) (location : String) (card_start_number : ℕ)
    (instruments : List Instrument) (p : ℚ) : Option (List IOCard) :=
  if signal_count = 0 then some []
  else if module.channels = 0 then none
  else
    let c := module.channels
    let num_cards := (calculate_cards_needed signal_count c p).1
    some ((List.range num_cards).map fun i =>
      { module := module
        card_number := card_start_number + i
        system := system
        location := location
        total_channels := c
        used_channels := min (signal_count - i * c) c
        spare_channels := c - min (signal_count - i * c) c
        channel_assignments := cardChannelAssignments instruments c i })

/-- Ceiling division over ℚ agrees with the natural-number formula. -/
lemma ceil_div_eq_ceilDiv (a c : ℕ) (hc : 1 ≤ c) :
    ⌈(a : ℚ) / (c : ℚ)⌉ = (((a + c - 1) / c : ℕ) : ℤ) := by
  set d := (a + c - 1) / c with hd
  have h1 : a ≤ c * d := by
    have := le_smul_ceilDiv (show 0 < c by omega) (b := a)
    simpa [Nat.ceilDiv_eq_add_pred_div, smul_eq_mul, hd] using this
  have h2 : c * d < a + c := by
    have h2a : d * c ≤ a + c - 1 := by
      rw [hd]
      exact Nat.div_mul_le_self _ _
    rw [Nat.mul_comm c d]
    omega
  have hcq : (0 : ℚ) < (c : ℚ) := by exact_mod_cast (by omega : 0 < c)
  have h1q : (a : ℚ) ≤ (c : ℚ) * (d : ℚ) := by exact_mod_cast h1
  have h2q : (c : ℚ) * (d : ℚ) < (a : ℚ) + (c : ℚ) := by exact_mod_cast h2
  rw [Int.ceil_eq_iff]
  constructor
  · rw [lt_div_iff₀ hcq, Int.cast_natCast]
    have hring : ((d : ℚ) - 1) * (c : ℚ) = (c : ℚ) * (d : ℚ) - (c : ℚ) := by ring
    rw [hring]
    linarith
  · rw [div_le_iff₀ hcq, Int.cast_natCast]
    have hring : (d : ℚ) * (c : ℚ) = (c : ℚ) * (d : ℚ) := by ring
    rw [hring]
    exact h1q

/-- Concatenating `k` chunks of `c` positions enumerates `k * c` positions. -/
lemma flatten_chunks {α : Type} (f : ℕ → α) (c : ℕ) (k : ℕ) :
    ((List.range k).map
        (fun i => (List.range' 1 c).map (fun ch => f (i * c + (ch - 1))))).flatten =
      (List.range (k * c)).map f := by
  induction k with
  | zero => simp
  | succ k ih =>
    rw [List.range_succ, List.map_append, List.flatten_append, ih]
    simp only [List.map_cons, List.map_nil, List.flatten_cons, List.flatten_nil,
      List.append_nil]
    have h1 : (List.range' 1 c).map (fun ch => f (k * c + (ch - 1))) =
        (List.range c).map (fun j => f (k * c + j)) := by
      rw [List.range'_eq_map_range, List.map_map]
      apply List.map_congr_left
      intro j _
      simp only [Function.comp_apply]
      congr 1
      omega
    have h2 : (k + 1) * c = k * c + c := by ring
    rw [h1, h2, List.range_add, List.map_append, List.map_map]
    rfl

/-- Mapping the channel-row lookup over all valid indices lists the used rows
in instrument order. -/
lemma range_map_lookup_inst (l : List Instrument) :
    (List.range l.length).map (fun g =>
      match l.get? g with
      | some inst => usedChannelAssignment inst
      | none => spareChannelAssignment) = l.map usedChannelAssignment := by
  induction l with
  | nil => simp
  | cons a t ih =>
    rw [List.length_cons, List.range_succ_eq_map, List.map_cons, List.map_map]
    have hcomp : ((fun g =>
        match (a :: t).get? g with
        | some inst => usedChannelAssignment inst
        | none => spareChannelAssignment) ∘ Nat.succ) =
        fun g =>
          match t.get? g with
          | some inst => usedChannelAssignment inst
          | none => spareChannelAssignment := by
      funext g
      simp [List.get?_cons_succ]
    rw [hcomp, ih]
    rfl

/-- The channel rows of all cards, concatenated in card order, are the used
rows for the instruments in order followed by spare rows. -/
lemma card_assignments_flatten (instruments : List Instrument) (c num : ℕ)
    (hn : instruments.length ≤ num * c) :
    ((List.range num).map
        (fun i => (cardChannelAssignments instruments c i).map Prod.snd)).flatten =
      instruments.map usedChannelAssignment ++
        List.replicate (num * c - instruments.length) spareChannelAssignment := by
  set F : ℕ → ChannelAssignment := fun g =>
    match instruments.get? g with
    | some inst => usedChannelAssignment inst
    | none => spareChannelAssignment with hF
  have h1 : ∀ i, (cardChannelAssignments instruments c i).map Prod.snd =
      (List.range' 1 c).map (fun ch => F (i * c + (ch - 1))) := by
    intro i
    rw [cardChannelAssignments, List.map_map, hF]
    apply List.map_congr_left
    intro ch _
    simp only [Function.comp_apply]
    cases instruments.get? (i * c + (ch - 1)) <;> rfl
  have hmaps : (List.range num).map
      (fun i => (cardChannelAssignments instruments c i).map Prod.snd) =
      (List.range num).map (fun i => (List.range' 1 c).map (fun ch => F (i * c + (ch - 1)))) := by
    apply List.map_congr_left
    intro i _
    exact h1 i
  rw [hmaps, flatten_chunks F c num]
  have hsplit : num * c = instruments.length + (num * c - instruments.length) := by
    omega
  nth_rewrite 1 [hsplit]
  rw [List.range_add, List.map_append]
  congr 1
  · rw [hF]
    exact range_map_lookup_inst instruments
  · rw [List.map_map]
    rw [List.eq_replicate_iff]
    refine ⟨by simp, ?_⟩
    intro b hb
    rw [List.mem_map] at hb
    obtain ⟨g, _, hb⟩ := hb
    have hnone : instruments.get? (instruments.length + g) = none :=
      List.get?_eq_none.mpr (by omega)
    simp only [Function.comp_apply, hF] at hb
    rw [hnone] at hb
    exact hb.symm

/-- C6: for a (system, io_type) group of n ≥ 1 signals and a module with
c ≥ 1 channels, `allocate_cards_for_io_type` creates exactly
ceil(ceil(n * (1 + p)) / c) cards; on every card
used + spare = total = module.channels, every channel 1..c is present in the
assignment map in order, and across the cards the channels are filled with
the instruments in group order until exhausted, the rest marked SPARE; zero
signals produce zero cards. -/
theorem io_card_allocation (module : IOModule) (system : ControlSystem)
    (location : String) (n start : ℕ) (insts : List Instrument) (p : ℚ)
    (hc : 1 ≤ module.channels) (hlen : insts.length = n) (hp : 0 ≤ p)
    (hn : 1 ≤ n) :
    (∀ cards,
      allocate_cards_for_io_type module system n location start insts p =
        some cards →
      cards.length =
          ((⌈(n : ℚ) * (1 + p)⌉).toNat + module.channels - 1) / module.channels ∧
        (∀ card ∈ cards,
          card.total_channels = module.channels ∧
            card.used_channels + card.spare_channels = module.channels ∧
            card.channel_assignments.map Prod.fst = List.range' 1 module.channels) ∧
        (cards.map (fun card => card.channel_assignments.map Prod.snd)).flatten =
          insts.map usedChannelAssignment ++
            List.replicate (cards.length * module.channels - n)
              spareChannelAssignment) ∧
      allocate_cards_for_io_type module system 0 location start insts p =
        some [] := by
  constructor
  · intro cards hcards
    unfold allocate_cards_for_io_type at hcards
    rw [if_neg (by omega), if_neg (by omega)] at hcards
    simp only [calculate_cards_needed, if_neg (show ¬ n = 0 by omega)] at hcards
    injection hcards with hcards
    set c := module.channels with hcdef
    set cws := (⌈(n : ℚ) * (1 + p)⌉).toNat with hcws
    have hnum : (⌈(cws : ℚ) / (c : ℚ)⌉).toNat = (cws + c - 1) / c := by
      rw [ceil_div_eq_ceilDiv cws c hc, Int.toNat_ofNat]
    have hlen2 : cards.length = (cws + c - 1) / c := by
      rw [← hcards, List.length_map, List.length_range, hnum]
    have hcwsn : n ≤ cws := le_required n p hp
    have hbound : n ≤ ((cws + c - 1) / c) * c := by
      have hmod := Nat.div_add_mod (cws + c - 1) c
      have hrlt : (cws + c - 1) % c < c := Nat.mod_lt _ (by omega)
      have : cws ≤ ((cws + c - 1) / c) * c := by
        rw [Nat.mul_comm]
        omega
      omega
    refine ⟨hlen2, ?_, ?_⟩
    · intro card hcard
      rw [← hcards] at hcard
      rw [List.mem_map] at hcard
      obtain ⟨i, _, hcard⟩ := hcard
      subst hcard
      refine ⟨rfl, ?_, ?_⟩
      · have : min (n - i * c) c ≤ c := Nat.min_le_right _ _
        simp only
        omega
      · simp only [cardChannelAssignments, List.map_map]
        have hfst : (Prod.fst ∘ fun ch =>
            (match insts.get? (i * c + (ch - 1)) with
              | some inst => (ch, usedChannelAssignment inst)
              | none => (ch, spareChannelAssignment)) : ℕ → ℕ) = id := by
          funext ch
          simp only [Function.comp_apply, id]
          cases insts.get? (i * c + (ch - 1)) <;> rfl
        rw [hfst, List.map_id]
    · rw [← hcards, List.map_map]
      have hsnd : ((fun card : IOCard => card.channel_assignments.map Prod.snd) ∘
          fun i =>
            ({ module := module
               card_number := start + i
               system := system
               location := location
               total_channels := c
               used_channels := min (n - i * c) c
               spare_channels := c - min (n - i * c) c
               channel_assignments := cardChannelAssignments insts c i } : IOCard)) =
          fun i => (cardChannelAssignments insts c i).map Prod.snd := by
        funext i
        rfl
      rw [hsnd, hnum, List.length_map, List.length_range]
      rw [card_assignments_flatten insts c ((cws + c - 1) / c) (by omega)]
      rw [hlen]
  · unfold allocate_cards_for_io_type
    rw [if_pos rfl]

/-- A sample 8-channel AI module. -/
def demoModule : IOModule :=
  { model := "AAI143-S00"
    io_type := .AI
    channels := 8
    signal_type := "4-20mA"
    control_system := some .DCS }

/-- Concrete run: allocating the demo pair on the demo module succeeds. -/
lemma demo_io_isSome :
    (allocate_cards_for_io_type demoModule .DCS 2 "CCR" 1 demoPair (1/5)).isSome =
      true := by
  unfold allocate_cards_for_io_type
  norm_num [demoModule]

/-- Witness for C6: two instruments on an 8-channel module. -/
theorem io_card_allocation_witness :
    1 ≤ demoModule.channels ∧ demoPair.length = 2 ∧ 0 ≤ (1/5 : ℚ) ∧
      (allocate_cards_for_io_type demoModule .DCS 2 "CCR" 1 demoPair (1/5)).isSome =
        true ∧
      ((∀ cards,
        allocate_cards_for_io_type demoModule .DCS 2 "CCR" 1 demoPair (1/5) =
          some cards →
        cards.length =
            ((⌈(2 : ℚ) * (1 + 1/5)⌉).toNat + demoModule.channels - 1) /
              demoModule.channels ∧
          (∀ card ∈ cards,
            card.total_channels = demoModule.channels ∧
              card.used_channels + card.spare_channels = demoModule.channels ∧
              card.channel_assignments.map Prod.fst =
                List.range' 1 demoModule.channels) ∧
          (cards.map (fun card => card.channel_assignments.map Prod.snd)).flatten =
            demoPair.map usedChannelAssignment ++
              List.replicate (cards.length * demoModule.channels - 2)
                spareChannelAssignment) ∧
        allocate_cards_for_io_type demoModule .DCS 0 "CCR" 1 demoPair (1/5) =
          some []) :=
  ⟨by norm_num [demoModule], rfl, by norm_num, demo_io_isSome,
    io_card_allocation demoModule .DCS "CCR" 2 1 demoPair (1/5)
      (by norm_num [demoModule]) rfl (by norm_num) (by norm_num)⟩

/-! ## Tag generator (`src/engine/tag_generator.py`) -/

/-- Configuration for tag generation (models the `TagConfig` dataclass). -/
structure TagConfig where
  plant_code : String := "PP01"
  area_code : String := "601"
  jb_sequence_start : ℕ := 1
  cable_sequence_start : ℕ := 1
  tb_sequence_start : ℕ := 1
deriving DecidableEq, Repr

/-- The mutable state of a `TagGenerator` instance. -/
structure TagGeneratorState where
  config : TagConfig
  jb_counter_analog : ℕ
  jb_counter_digital : ℕ
  jb_counter_mixed : ℕ
  cable_counter : ℕ
  tb_counter : ℕ
deriving DecidableEq, Repr

/-- Models `TagGenerator.__init__`. -/
def TagGeneratorState.init (config : TagConfig) : TagGeneratorState :=
  { config := config
    jb_counter_analog := config.jb_sequence_start
    jb_counter_digital := config.jb_sequence_start
    jb_counter_mixed := config.jb_sequence_start
    cable_counter := config.cable_sequence_start
    tb_counter := config.tb_sequence_start }

/-- Zero padding as in the Python format spec `{n:04d}`. -/
def zeroPad (width n : ℕ) : String :=
  let s := toString n
  if s.length < width then String.mk (List.replicate (width - s.length) '0') ++ s
  else s

/-- Splitting a character list on the hyphen, as Python `str.split("-")`. -/
def splitDashChars : List Char → List (List Char)
  | [] => [[]]
  | ch :: cs =>
    match splitDashChars cs with
    | [] => [[ch]]
    | part :: parts => if ch = '-' then [] :: part :: parts else (ch :: part) :: parts

/-- String-level split on the hyphen. -/
def splitDash (s : String) : List String :=
  (splitDashChars s.data).map fun l => String.mk l

/-- Models `TagGenerator.generate_terminal_block_tag`: when a cable tag with
at least three hyphen-separated parts is given, derive the TB tag from the
cable number (not touching the counter); otherwise draw a fresh sequence
number. -/
def generate_terminal_block_tag (g : TagGeneratorState)
    (cable_tag : Option String) : String × TagGeneratorState :=
  let fromCounter :=
    ("TB" ++ g.config.area_code ++ "-I" ++ zeroPad 4 g.tb_counter,
      { g with tb_counter := g.tb_counter + 1 })
  match cable_tag with
  | some ct =>
    match (splitDash ct).get? 2 with
    | some cable_num => ("TB" ++ g.config.area_code ++ "-" ++ cable_num, g)
    | none => fromCounter
  | none => fromCounter

/-- The numeric suffix of a tag: its longest trailing run of digits. -/
def numericSuffix (s : String) : String :=
  String.mk ((s.data.reverse.takeWhile fun ch => ch.isDigit).reverse)

/-- The character-level split never returns the empty list. -/
lemma splitDashChars_ne_nil (l : List Char) : splitDashChars l ≠ [] := by
  cases l with
  | nil => simp [splitDashChars]
  | cons ch cs =>
    rw [splitDashChars]
    cases splitDashChars cs with
    | nil => simp
    | cons part parts =>
      by_cases h : ch = '-' <;> simp [h]

/-- Splitting a hyphen-free list gives one part. -/
lemma splitDashChars_no_dash (l : List Char) (h : '-' ∉ l) :
    splitDashChars l = [l] := by
  induction l with
  | nil => rfl
  | cons ch cs ih =>
    have hch : ¬ ch = '-' := fun he => h (by rw [he]; exact List.mem_cons_self _ _)
    have hcs : '-' ∉ cs := fun hm => h (List.mem_cons_of_mem _ hm)
    rw [splitDashChars, ih hcs]
    simp [hch]

/-- Splitting peels off a hyphen-free head part. -/
lemma splitDashChars_append (xs rest : List Char) (h : '-' ∉ xs) :
    splitDashChars (xs ++ '-' :: rest) = xs :: splitDashChars rest := by
  induction xs with
  | nil =>
    rw [List.nil_append, splitDashChars]
    obtain ⟨part, parts, hps⟩ : ∃ part parts, splitDashChars rest = part :: parts := by
      cases hs : splitDashChars rest with
      | nil => exact absurd hs (splitDashChars_ne_nil rest)
      | cons part parts => exact ⟨part, parts, rfl⟩
    rw [hps]
    simp
  | cons ch cs ih =>
    have hch : ¬ ch = '-' := fun he => h (by rw [he]; exact List.mem_cons_self _ _)
    have hcs : '-' ∉ cs := fun hm => h (List.mem_cons_of_mem _ hm)
    rw [List.cons_append, splitDashChars, ih hcs]
    simp [hch]

/-- A run of predicate-true elements before a failing element is the whole
takeWhile. -/
lemma takeWhile_append_run {p : Char → Bool} (l₁ : List Char) (h0 : Char)
    (l₂ : List Char) (h : ∀ x ∈ l₁, p x = true) (hh : p h0 = false) :
    (l₁ ++ h0 :: l₂).takeWhile p = l₁ := by
  induction l₁ with
  | nil => simp [List.takeWhile_cons, hh]
  | cons a as ih =>
    rw [List.cons_append, List.takeWhile_cons, h a (List.mem_cons_self _ _)]
    rw [ih fun x hx => h x (List.mem_cons_of_mem _ hx)]
    simp

/-- The numeric suffix of any tag ending in `I` followed by digits is that
digit run. -/
lemma numericSuffix_of_data (s : String) (pre : List Char) (nnnn : String)
    (hs : s.data = pre ++ 'I' :: nnnn.data)
    (hd : ∀ ch ∈ nnnn.data, ch.isDigit = true) :
    numericSuffix s = nnnn := by
  rw [numericSuffix, hs, List.reverse_append, List.reverse_cons, List.append_assoc,
    List.singleton_append]
  rw [takeWhile_append_run nnnn.data.reverse 'I' pre.reverse
    (fun x hx => hd x (List.mem_reverse.mp hx)) (by decide)]
  rw [List.reverse_reverse]

/-- C9: for a cable tag of the three-part form `<plant>-<area>-I<nnnn>`, the
terminal-block tag generated from it carries the same numeric suffix
`<nnnn>` as the cable tag, for every generator state. -/
theorem tb_tag_roundtrip (g : TagGeneratorState) (plant area nnnn : String)
    (hplant : '-' ∉ plant.data) (harea : '-' ∉ area.data)
    (hdig : ∀ ch ∈ nnnn.data, ch.isDigit = true) :
    numericSuffix
        (generate_terminal_block_tag g
          (some (plant ++ "-" ++ area ++ "-I" ++ nnnn))).1 = nnnn ∧
      numericSuffix (plant ++ "-" ++ area ++ "-I" ++ nnnn) = nnnn := by
  have hdata : (plant ++ "-" ++ area ++ "-I" ++ nnnn).data =
      plant.data ++ '-' :: (area.data ++ '-' :: ('I' :: nnnn.data)) := by
    simp [String.data_append]
  have hlast : '-' ∉ ('I' :: nnnn.data) := by
    intro hm
    rcases List.mem_cons.mp hm with h | h
    · exact absurd h (by decide)
    · have := hdig '-' h
      simp at this
  have hsplit : splitDashChars (plant ++ "-" ++ area ++ "-I" ++ nnnn).data =
      [plant.data, area.data, 'I' :: nnnn.data] := by
    rw [hdata, splitDashChars_append _ _ hplant,
      splitDashChars_append _ _ harea, splitDashChars_no_dash _ hlast]
  constructor
  · rw [generate_terminal_block_tag]
    simp only [splitDash, hsplit, List.map_cons, List.map_nil]
    rw [show (([String.mk plant.data, String.mk area.data,
        String.mk ('I' :: nnnn.data)] : List String).get? 2) =
      some (String.mk ('I' :: nnnn.data)) from rfl]
    apply numericSuffix_of_data _
      (("TB" ++ g.config.area_code ++ "-").data) nnnn _ hdig
    simp [String.data_append]
  · exact numericSuffix_of_data _ (plant.data ++ '-' :: area.data ++ ['-']) nnnn
      (by rw [hdata]; simp) hdig

/-- Witness for C9: the default generator state and cable tag PP01-601-I0004. -/
theorem tb_tag_roundtrip_witness :
    '-' ∉ ("PP01" : String).data ∧ '-' ∉ ("601" : String).data ∧
      (∀ ch ∈ ("0004" : String).data, ch.isDigit = true) ∧
      numericSuffix
          (generate_terminal_block_tag (TagGeneratorState.init {})
            (some ("PP01" ++ "-" ++ "601" ++ "-I" ++ "0004"))).1 = "0004" ∧
      numericSuffix ("PP01" ++ "-" ++ "601" ++ "-I" ++ "0004") = "0004" := by
  have h := tb_tag_roundtrip (TagGeneratorState.init {}) "PP01" "601" "0004"
    (by decide) (by decide) (by decide)
  exact ⟨by decide, by decide, by decide, h.1, h.2⟩

/-! ## Signal-type segregation (`terminal_allocator.py`, lower half) -/

/-- Analog signal types (models `ANALOG_SIGNAL_TYPES`). -/
def ANALOG_SIGNAL_TYPES : List SignalType :=
  [.analogInput, .analogOutput, .thermocouple, .rtd3wire, .rtd4wire]

/-- Digital signal types (models `DIGITAL_SIGNAL_TYPES`). -/
def DIGITAL_SIGNAL_TYPES : List SignalType :=
  [.digitalInput, .digitalOutput]

/-- Routing decision of the separation loop: analog types go analog, digital
types go digital, anything else (including an unset signal type) defaults to
the analog subset. -/
def instrumentGoesAnalog (inst : Instrument) : Bool :=
  match inst.signal_type with
  | some t =>
    if t ∈ ANALOG_SIGNAL_TYPES then true
    else if t ∈ DIGITAL_SIGNAL_TYPES then false
    else true
  | none => true

/-- Models `separate_instruments_by_signal_type`: one pass over the input,
appending each instrument to the analog or the digital list. -/
def separate_instruments_by_signal_type :
    List Instrument → List Instrument × List Instrument
  | [] => ([], [])
  | inst :: rest =>
    let r := separate_instruments_by_signal_type rest
    if instrumentGoesAnalog inst then (inst :: r.1, r.2) else (r.1, inst :: r.2)

/-- Junction box classification (models `JBType` in `classifier.py`). -/
inductive JBType
  | analog
  | digital
  | mixed
deriving DecidableEq, Repr

/-- The string value of a JB type. -/
def JBType.value : JBType → String
  | .analog => "ANALOG"
  | .digital => "DIGITAL"
  | .mixed => "MIXED"

/-- Whether an instrument contributes an analog signal type. -/
def instHasAnalogSignal (inst : Instrument) : Bool :=
  match inst.signal_type with
  | some t => t ∈ ANALOG_SIGNAL_TYPES
  | none => false

/-- Whether an instrument contributes a digital signal type. -/
def instHasDigitalSignal (inst : Instrument) : Bool :=
  match inst.signal_type with
  | some t => t ∈ DIGITAL_SIGNAL_TYPES
  | none => false

/-- Models `classify_jb_type`. -/
def classify_jb_type (instruments : List Instrument) : JBType :=
  if instruments.isEmpty then .analog
  else
    let has_analog := instruments.any instHasAnalogSignal
    let has_digital := instruments.any instHasDigitalSignal
    if has_analog && has_digital then .mixed
    else if has_digital then .digital
    else .analog

/-- A junction box (models the `JunctionBox` dataclass). -/
structure JunctionBox where
  tag_number : String
  jb_type : String
  area : String
  terminal_block : TerminalBlock
  multipair_cable_tag : String
deriving DecidableEq, Repr

/-- A marshalling cabinet (models the `MarshallingCabinet` dataclass). -/
structure MarshallingCabinet where
  tag_number : String
  area : String
  terminal_blocks : List TerminalBlock
deriving DecidableEq, Repr

/-- Area extraction from a tag: the second hyphen-separated part, `"000"`
when the tag has fewer than two parts. -/
def parseArea (tag : String) : String :=
  match (splitDash tag).get? 1 with
  | some a => a
  | none => "000"

/-- Models `create_junction_box`. -/
def create_junction_box (jb_tag : String) (instruments : List Instrument)
    (multipair_cable_tag : String) (spare_percent : ℚ) :
    Except TerminalAllocationError (JunctionBox × AllocationResult) :=
  let jb_type := classify_jb_type instruments
  let area := parseArea jb_tag
  match (allocate_jb_terminals instruments jb_tag spare_percent 48 none).1 with
  | .ok ar =>
    .ok
      ({ tag_number := jb_tag
         jb_type := jb_type.value
         area := area
         terminal_block := ar.terminal_block
         multipair_cable_tag := multipair_cable_tag }, ar)
  | .error e => .error e

/-- The enclosure suffix letters A..Z. -/
def suffixLetters : List String :=
  ["A", "B", "C", "D", "E", "F", "G", "H", "I", "J", "K", "L", "M",
    "N", "O", "P", "Q", "R", "S", "T", "U", "V", "W", "X", "Y", "Z"]

/-- The suffix for enclosure `idx` (0-based): a letter for the first 26,
then the 1-based index as digits. -/
def jbSuffix (idx : ℕ) : String :=
  match suffixLetters.get? idx with
  | some s => s
  | none => toString (idx + 1)

/-- The instrument slices per enclosure, following the plan's counts. -/
def sliceByCounts : List Instrument → List ℕ → List (List Instrument)
  | _, [] => []
  | l, c :: cs => l.take c :: sliceByCounts (l.drop c) cs

/-- First-error collection of a list of fallible results, as the Python loop
that aborts on the first exception. -/
def collectOk {ε α : Type} : List (Except ε α) → Option (List α)
  | [] => some []
  | .ok a :: rest => (collectOk rest).map (a :: ·)
  | .error _ :: _ => none

/-- Result of allocating across several JBs (models
`MultiJBAllocationResult`; the tag map is kept as an association list). -/
structure MultiJBAllocationResult where
  plan : JBAllocationPlan
  junction_boxes : List JunctionBox
  jb_allocations : List AllocationResult
  instrument_assignments : List (String × String)
deriving DecidableEq, Repr

/-- Models `allocate_multiple_jbs`; `none` when the plan or any enclosure
allocation raises. -/
def allocate_multiple_jbs (instruments : List Instrument) (base_jb_tag : String)
    (multipair_cable_base_tag : String) (spare_percent : ℚ)
    (preferred_size : Option JBSize) : Option MultiJBAllocationResult :=
  match calculate_jb_allocation_plan instruments.length spare_percent preferred_size with
  | none => none
  | some plan =>
    let slices := sliceByCounts instruments plan.instruments_per_jb
    let tagsFor : ℕ → String × String := fun idx =>
      if 1 < plan.num_jbs_needed then
        (base_jb_tag ++ jbSuffix idx, multipair_cable_base_tag ++ jbSuffix idx)
      else (base_jb_tag, multipair_cable_base_tag)
    match collectOk (slices.enum.map fun pr =>
        create_junction_box (tagsFor pr.1).1 pr.2 (tagsFor pr.1).2 spare_percent) with
    | none => none
    | some pairs =>
      some
        { plan := plan
          junction_boxes := pairs.map Prod.fst
          jb_allocations := pairs.map Prod.snd
          instrument_assignments :=
            slices.enum.flatMap fun pr =>
              pr.2.map fun inst => (inst.tag_number, (tagsFor pr.1).1) }

/-- Models `create_marshalling_cabinet`. -/
def create_marshalling_cabinet (cabinet_tag : String)
    (terminal_blocks : List TerminalBlock) : MarshallingCabinet :=
  { tag_number := cabinet_tag
    area := parseArea cabinet_tag
    terminal_blocks := terminal_blocks }

/-- Result of `allocate_all_terminals_auto` (the dictionary it returns,
restricted to the fields the engine's callers read). -/
structure AutoAllocation where
  multi_jb_result : MultiJBAllocationResult
  junction_boxes : List JunctionBox
  jb_allocations : List AllocationResult
  cabinet : MarshallingCabinet
  cabinet_allocations : List AllocationResult
  cabinet_terminal_blocks : List TerminalBlock
  num_jbs : ℕ
deriving DecidableEq, Repr

/-- Models `allocate_all_terminals_auto`. -/
def allocate_all_terminals_auto (instruments : List Instrument)
    (base_jb_tag cabinet_tag base_tb_tag base_multipair_cable_tag : String)
    (spare_percent : ℚ) (preferred_jb_size : Option JBSize) :
    Option AutoAllocation :=
  match allocate_multiple_jbs instruments base_jb_tag base_multipair_cable_tag
      spare_percent preferred_jb_size with
  | none => none
  | some multi =>
    let slices := sliceByCounts instruments multi.plan.instruments_per_jb
    let tbTagFor : ℕ → String := fun idx =>
      if 1 < multi.plan.num_jbs_needed then base_tb_tag ++ jbSuffix idx
      else base_tb_tag
    match collectOk (slices.enum.map fun pr =>
        (allocate_cabinet_terminals pr.2 cabinet_tag (tbTagFor pr.1) spare_percent
          (JB_CAPACITIES multi.plan.jb_size)).1) with
    | none => none
    | some cabs =>
      some
        { multi_jb_result := multi
          junction_boxes := multi.junction_boxes
          jb_allocations := multi.jb_allocations
          cabinet :=
            create_marshalling_cabinet cabinet_tag (cabs.map fun a => a.terminal_block)
          cabinet_allocations := cabs
          cabinet_terminal_blocks := cabs.map fun a => a.terminal_block
          num_jbs := multi.plan.num_jbs_needed }

/-- Result of `allocate_by_signal_type` (the dictionary it returns,
restricted to the fields the claims are about). -/
structure SignalTypeAllocation where
  analog_instruments : List Instrument
  digital_instruments : List Instrument
  analog_jbs : List JunctionBox
  digital_jbs : List JunctionBox
  all_jbs : List JunctionBox
  analog_jb_count : ℕ
  digital_jb_count : ℕ
  total_jb_count : ℕ
  analog_allocation : Option AutoAllocation
  digital_allocation : Option AutoAllocation
deriving DecidableEq, Repr

/-- Models `allocate_by_signal_type`: separate the instruments by signal
type, then run the full auto allocation independently on each nonempty
subset with its own base tags. -/
def allocate_by_signal_type (instruments : List Instrument)
    (base_analog_jb_tag base_digital_jb_tag cabinet_tag base_analog_cable_tag
      base_digital_cable_tag base_analog_tb_tag base_digital_tb_tag : String)
    (spare_percent : ℚ) : Option SignalTypeAllocation :=
  let separated := separate_instruments_by_signal_type instruments
  let analog_instruments := separated.1
  let digital_instruments := separated.2
  let analogRes : Option (Option AutoAllocation) :=
    if analog_instruments.isEmpty then some none
    else
      match allocate_all_terminals_auto analog_instruments base_analog_jb_tag
          cabinet_tag base_analog_tb_tag base_analog_cable_tag spare_percent none with
      | none => none
      | some r => some (some r)
  let digitalRes : Option (Option AutoAllocation) :=
    if digital_instruments.isEmpty then some none
    else
      match allocate_all_terminals_auto digital_instruments base_digital_jb_tag
          cabinet_tag base_digital_tb_tag base_digital_cable_tag spare_percent none with
      | none => none
      | some r => some (some r)
  match analogRes, digitalRes with
  | some aOpt, some dOpt =>
    let ajbs := match aOpt with | some r => r.junction_boxes | none => []
    let djbs := match dOpt with | some r => r.junction_boxes | none => []
    let acount := match aOpt with | some r => r.num_jbs | none => 0
    let dcount := match dOpt with | some r => r.num_jbs | none => 0
    some
      { analog_instruments := analog_instruments
        digital_instruments := digital_instruments
        analog_jbs := ajbs
        digital_jbs := djbs
        all_jbs := ajbs ++ djbs
        analog_jb_count := acount
        digital_jb_count := dcount
        total_jb_count := acount + dcount
        analog_allocation := aOpt
        digital_allocation := dOpt }
  | _, _ => none

/-- The separation pass is the stable partition by the routing predicate. -/
lemma separate_eq_filter (l : List Instrument) :
    separate_instruments_by_signal_type l =
      (l.filter instrumentGoesAnalog,
        l.filter fun i => ! instrumentGoesAnalog i) := by
  induction l with
  | nil => rfl
  | cons i rest ih =>
    rw [separate_instruments_by_signal_type, ih]
    by_cases h : instrumentGoesAnalog i <;> simp [h, List.filter_cons]

/-- Every used row of a junction box names an instrument of the given list. -/
def UsedTagsFrom (jb : JunctionBox) (insts : List Instrument) : Prop :=
  ∀ a ∈ jb.terminal_block.allocations, a.status = .used →
    ∃ i ∈ insts, a.instrument_tag = some i.tag_number

/-- The terminal block of a successful JB allocation holds exactly the
computed allocations. -/
lemma allocate_jb_terminals_ok_tb (instruments : List Instrument)
    (jb_tag : String) (p : ℚ) (maxT : ℕ) (szo : Option JBSize)
    (res : AllocationResult) (upd : List Instrument)
    (h : allocate_jb_terminals instruments jb_tag p maxT szo = (.ok res, upd)) :
    res.terminal_block.allocations = res.allocations := by
  unfold allocate_jb_terminals at h
  simp only [calculate_terminals_needed] at h
  split at h
  · split at h <;> simp at h
  · rw [Prod.mk.injEq] at h
    obtain ⟨hres, _⟩ := h
    injection hres with hres
    subst hres
    rfl

/-- A junction box created by `create_junction_box` only uses instruments of
its own slice. -/
lemma create_junction_box_used_tags (jb_tag : String)
    (insts : List Instrument) (cable : String) (p : ℚ) (jb : JunctionBox)
    (ar : AllocationResult)
    (h : create_junction_box jb_tag insts cable p = .ok (jb, ar)) :
    UsedTagsFrom jb insts := by
  unfold create_junction_box at h
  split at h
  next ar0 heq =>
    injection h with h
    rw [Prod.mk.injEq] at h
    obtain ⟨hjb, har⟩ := h
    have hpair : allocate_jb_terminals insts jb_tag p 48 none =
        (.ok ar0, (allocate_jb_terminals insts jb_tag p 48 none).2) := by
      rw [← heq]
    obtain ⟨h1, h2, h3, h4⟩ :=
      allocate_jb_terminals_ok_shape insts jb_tag p 48 none ar0 _ hpair
    have htb := allocate_jb_terminals_ok_tb insts jb_tag p 48 none ar0 _ hpair
    intro a ha hused
    rw [← hjb] at ha
    simp only [htb, h4, List.mem_append] at ha
    rcases ha with ha | ha
    · rw [List.mem_map] at ha
      obtain ⟨pr, hpr, ha⟩ := ha
      refine ⟨pr.2, ?_, ?_⟩
      · have : pr.2 ∈ (List.enumFrom 1 insts).map Prod.snd :=
          List.mem_map_of_mem Prod.snd hpr
        rwa [List.enumFrom_map_snd] at this
      · rw [← ha]
        rfl
    · exfalso
      rw [List.mem_map] at ha
      obtain ⟨idx, _, ha⟩ := ha
      rw [← ha] at hused
      exact absurd hused (by simp [jbSpareAllocation])
  next e heq =>
    simp at h

/-- Elements of a slice come from the sliced list. -/
lemma mem_sliceByCounts (counts : List ℕ) :
    ∀ (l : List Instrument), ∀ s ∈ sliceByCounts l counts, ∀ x ∈ s, x ∈ l := by
  induction counts with
  | nil =>
    intro l s hs
    simp [sliceByCounts] at hs
  | cons c cs ih =>
    intro l s hs x hx
    rw [sliceByCounts] at hs
    rcases List.mem_cons.mp hs with h | h
    · rw [h] at hx
      exact List.take_subset c l hx
    · exact List.drop_subset c l (ih (l.drop c) s h x hx)

/-- Successful collection means every collected value was an ok entry. -/
lemma collectOk_mem {ε α : Type} :
    ∀ (l : List (Except ε α)) (xs : List α), collectOk l = some xs →
      ∀ x ∈ xs, Except.ok x ∈ l := by
  intro l
  induction l with
  | nil =>
    intro xs h x hx
    rw [show collectOk ([] : List (Except ε α)) = some ([] : List α) from rfl] at h
    injection h with h
    rw [← h] at hx
    simp at hx
  | cons e rest ih =>
    intro xs h x hx
    match e with
    | .error err =>
      rw [show collectOk (Except.error err :: rest) = (none : Option (List α))
        from rfl] at h
      exact absurd h (by simp)
    | .ok a =>
      rw [show collectOk (Except.ok a :: rest) = (collectOk rest).map (a :: ·)
        from rfl] at h
      cases hrest : collectOk rest with
      | none =>
        rw [hrest] at h
        simp at h
      | some ys =>
        rw [hrest] at h
        rw [show (some ys).map (a :: ·) = some (a :: ys) from rfl] at h
        injection h with h
        rw [← h] at hx
        rcases List.mem_cons.mp hx with hxa | hxa
        · rw [hxa]
          exact List.mem_cons_self _ _
        · exact List.mem_cons_of_mem _ (ih ys hrest x hxa)

/-- Junction boxes collected from per-slice creation use only instruments of
the sliced list. -/
lemma collect_jbs_used_tags (insts : List Instrument) (counts : List ℕ)
    (f g : ℕ → String) (p : ℚ)
    (pairs : List (JunctionBox × AllocationResult))
    (hpairs : collectOk ((sliceByCounts insts counts).enum.map fun pr =>
        create_junction_box (f pr.1) pr.2 (g pr.1) p) = some pairs) :
    ∀ pair ∈ pairs, UsedTagsFrom pair.1 insts := by
  intro pair hpair
  have hok := collectOk_mem _ pairs hpairs pair hpair
  rw [List.mem_map] at hok
  obtain ⟨pr, hpr, hok⟩ := hok
  have hcreate : create_junction_box (f pr.1) pr.2 (g pr.1) p =
      .ok (pair.1, pair.2) := by
    rw [hok]
  have hused := create_junction_box_used_tags _ _ _ _ _ _ hcreate
  intro a ha hst
  obtain ⟨i, hi, htag⟩ := hused a ha hst
  refine ⟨i, ?_, htag⟩
  have hslice : pr.2 ∈ sliceByCounts insts counts := by
    have : pr.2 ∈ (sliceByCounts insts counts).enum.map Prod.snd :=
      List.mem_map_of_mem Prod.snd hpr
    rwa [List.enum_map_snd] at this
  exact mem_sliceByCounts counts insts pr.2 hslice i hi

/-- Every junction box of `allocate_multiple_jbs` only uses instruments of
the input list. -/
lemma allocate_multiple_jbs_used_tags (insts : List Instrument)
    (base cable : String) (p : ℚ) (pref : Option JBSize)
    (res : MultiJBAllocationResult)
    (h : allocate_multiple_jbs insts base cable p pref = some res) :
    ∀ jb ∈ res.junction_boxes, UsedTagsFrom jb insts := by
  unfold allocate_multiple_jbs at h
  split at h
  · simp at h
  next plan hplan =>
    split at h
    next hgt =>
      simp only [] at h
      split at h
      · simp at h
      next pairs hpairs =>
        injection h with h
        intro jb hjb
        rw [← h] at hjb
        simp only [List.mem_map] at hjb
        obtain ⟨pair, hpair, hjb⟩ := hjb
        rw [← hjb]
        exact collect_jbs_used_tags insts plan.instruments_per_jb
          (fun idx => base ++ jbSuffix idx) (fun idx => cable ++ jbSuffix idx)
          p pairs hpairs pair hpair
    next hle =>
      simp only [] at h
      split at h
      · simp at h
      next pairs hpairs =>
        injection h with h
        intro jb hjb
        rw [← h] at hjb
        simp only [List.mem_map] at hjb
        obtain ⟨pair, hpair, hjb⟩ := hjb
        rw [← hjb]
        exact collect_jbs_used_tags insts plan.instruments_per_jb
          (fun _ => base) (fun _ => cable) p pairs hpairs pair hpair

/-- Every junction box of `allocate_all_terminals_auto` only uses
instruments of the input list. -/
lemma allocate_all_terminals_auto_used_tags (insts : List Instrument)
    (bjb ct btb bmc : String) (p : ℚ) (pref : Option JBSize)
    (res : AutoAllocation)
    (h : allocate_all_terminals_auto insts bjb ct btb bmc p pref = some res) :
    ∀ jb ∈ res.junction_boxes, UsedTagsFrom jb insts := by
  unfold allocate_all_terminals_auto at h
  split at h
  · simp at h
  next multi hmulti =>
    split at h <;>
    · simp only [] at h
      split at h
      · simp at h
      next cabs hcabs =>
        injection h with h
        intro jb hjb
        rw [← h] at hjb
        exact allocate_multiple_jbs_used_tags insts bjb bmc p pref multi hmulti
          jb hjb

/-- C7: the separation into analog and digital subsets is the stable
partition by signal category (unknown categories defaulting to analog), and
every junction box produced by `allocate_by_signal_type` draws its used
terminals entirely from one of the two subsets — signal categories are never
mixed within one enclosure. -/
theorem signal_type_segregation (instruments : List Instrument)
    (base_analog_jb_tag base_digital_jb_tag cabinet_tag base_analog_cable_tag
      base_digital_cable_tag base_analog_tb_tag base_digital_tb_tag : String)
    (p : ℚ) :
    (separate_instruments_by_signal_type instruments =
      (instruments.filter instrumentGoesAnalog,
        instruments.filter fun i => ! instrumentGoesAnalog i)) ∧
    (∀ i : Instrument, i.signal_type = none → instrumentGoesAnalog i = true) ∧
    (∀ res,
      allocate_by_signal_type instruments base_analog_jb_tag base_digital_jb_tag
        cabinet_tag base_analog_cable_tag base_digital_cable_tag
        base_analog_tb_tag base_digital_tb_tag p = some res →
      res.analog_instruments = instruments.filter instrumentGoesAnalog ∧
      res.digital_instruments =
        instruments.filter (fun i => ! instrumentGoesAnalog i) ∧
      (∀ i ∈ res.analog_instruments, instrumentGoesAnalog i = true) ∧
      (∀ i ∈ res.digital_instruments, instrumentGoesAnalog i = false) ∧
      ∀ jb ∈ res.all_jbs,
        UsedTagsFrom jb res.analog_instruments ∨
          UsedTagsFrom jb res.digital_instruments) := by
  refine ⟨separate_eq_filter instruments, ?_, ?_⟩
  · intro i hi
    rw [instrumentGoesAnalog, hi]
  · intro res h
    unfold allocate_by_signal_type at h
    rw [separate_eq_filter] at h
    simp only [] at h
    split at h
    next aOpt dOpt heqA heqD =>
      injection h with h
      have hanalog : res.analog_instruments =
          instruments.filter instrumentGoesAnalog := by
        rw [← h]
      have hdigital : res.digital_instruments =
          instruments.filter (fun i => ! instrumentGoesAnalog i) := by
        rw [← h]
      refine ⟨hanalog, hdigital, ?_, ?_, ?_⟩
      · intro i hi
        rw [hanalog] at hi
        exact List.of_mem_filter hi
      · intro i hi
        rw [hdigital] at hi
        have := List.of_mem_filter hi
        simpa using this
      · intro jb hjb
        rw [← h] at hjb
        simp only [List.mem_append] at hjb
        rcases hjb with hjb | hjb
        · left
          rw [hanalog]
          rcases aOpt with _ | r
          · simp at hjb
          · simp only [] at hjb
            split at heqA
            · simp at heqA
            · split at heqA
              · simp at heqA
              next r0 hauto =>
                injection heqA with heqA
                injection heqA with heqA
                rw [heqA] at hauto
                exact allocate_all_terminals_auto_used_tags _ _ _ _ _ _ _ _
                  hauto jb hjb
        · right
          rw [hdigital]
          rcases dOpt with _ | r
          · simp at hjb
          · simp only [] at hjb
            split at heqD
            · simp at heqD
            · split at heqD
              · simp at heqD
              next r0 hauto =>
                injection heqD with heqD
                injection heqD with heqD
                rw [heqD] at hauto
                exact allocate_all_terminals_auto_used_tags _ _ _ _ _ _ _ _
                  hauto jb hjb
    all_goals simp at h

/-- One analog and one digital sample instrument. -/
def demoMixed : List Instrument :=
  [demoInstrument "PP01-601-TIT0001" (some .analogInput),
    demoInstrument "PP01-601-ZS0001" (some .digitalInput)]

/-- The allocation plan for a single instrument at 20% spare. -/
def demoPlan1 : JBAllocationPlan :=
  { total_instruments := 1
    jb_size := .small
    jb_capacity := 9
    num_jbs_needed := 1
    instruments_per_jb := [1]
    spare_percent := 1/5 }

/-- Concrete truncation: effective capacity of a small JB at 20% spare. -/
lemma trunc_48_5 : intTrunc ((48 : ℚ) / 5) = 9 := by
  rw [intTrunc, if_neg (by norm_num)]
  rw [Int.floor_eq_iff]
  constructor
  · norm_num
  · norm_num

/-- Concrete ceiling: one enclosure suffices for one instrument. -/
lemma ceil_1_9 : (⌈(1 : ℚ) / 9⌉).toNat = 1 := by
  have h2 : (⌈(1 : ℚ) / 9⌉) = 1 := by
    rw [Int.ceil_eq_iff]
    constructor
    · norm_num
    · norm_num
  rw [h2]; rfl

/-- Concrete ceiling: one spare terminal for one instrument at 20%. -/
lemma ceil_fifth : (⌈(5 : ℚ)⁻¹⌉).toNat = 1 := by
  have h2 : (⌈(5 : ℚ)⁻¹⌉) = 1 := by
    rw [Int.ceil_eq_iff]
    constructor
    · norm_num
    · norm_num
  rw [h2]; rfl

/-- Concrete plan: one instrument needs one small enclosure. -/
lemma plan_1 : calculate_jb_allocation_plan 1 (1/5) none = some demoPlan1 := by
  unfold demoPlan1
  unfold calculate_jb_allocation_plan selectJBSize autoSelectSize
  norm_num [JB_CAPACITIES, trunc_48_5, ceil_1_9]
  decide

/-- Concrete ceiling, division form: one spare terminal for one instrument. -/
lemma ceil_1_5 : (⌈(1 : ℚ) / 5⌉).toNat = 1 := by
  have h2 : (⌈(1 : ℚ) / 5⌉) = 1 := by
    rw [Int.ceil_eq_iff]
    constructor
    · norm_num
    · norm_num
  rw [h2]; rfl

/-- The separation of the mixed demo pair. -/
lemma sep_demoMixed :
    separate_instruments_by_signal_type demoMixed =
      ([demoInstrument "PP01-601-TIT0001" (some .analogInput)],
        [demoInstrument "PP01-601-ZS0001" (some .digitalInput)]) := rfl

/-- A single instrument always fits in a 48-terminal junction box at 20%
spare. -/
lemma jb_single_isOk (i : Instrument) (tag : String) :
    (allocate_jb_terminals [i] tag (1/5) 48 none).1.isOk = true := by
  unfold allocate_jb_terminals
  norm_num [calculate_terminals_needed, ceil_fifth, ceil_1_5, resolveCapacity,
    Except.isOk, Except.toBool]

/-- A single instrument always yields a junction box. -/
lemma create_jb_single_ok (i : Instrument) (tag m : String) :
    ∃ pr, create_junction_box tag [i] m (1/5) = .ok pr := by
  have h := jb_single_isOk i tag
  unfold create_junction_box
  rcases he : (allocate_jb_terminals [i] tag (1/5) 48 none).1 with e | ar
  · rw [he] at h
    simp [Except.isOk, Except.toBool] at h
  · exact ⟨_, rfl⟩

/-- The multi-enclosure allocation of a single instrument succeeds and uses
the one-instrument plan. -/
lemma amj_single (i : Instrument) (tag m : String) :
    ∃ r, allocate_multiple_jbs [i] tag m (1/5) none = some r ∧
      r.plan = demoPlan1 := by
  obtain ⟨pr, hpr⟩ := create_jb_single_ok i tag m
  unfold allocate_multiple_jbs
  rw [show ([i] : List Instrument).length = 1 from rfl, plan_1]
  norm_num [demoPlan1, sliceByCounts, List.enum, List.enumFrom, hpr, collectOk]

/-- A single instrument always fits a 12-pair cabinet terminal block at 20%
spare. -/
lemma cab_single_isOk (i : Instrument) (ct tb : String) :
    (allocate_cabinet_terminals [i] ct tb (1/5) 12).1.isOk = true := by
  unfold allocate_cabinet_terminals
  norm_num [calculate_terminals_needed, ceil_fifth, ceil_1_5, Except.isOk,
    Except.toBool]

/-- The full auto allocation of a single instrument succeeds. -/
lemma auto_single (i : Instrument) (jtag ctag ttag mtag : String) :
    (allocate_all_terminals_auto [i] jtag ctag ttag mtag (1/5) none).isSome =
      true := by
  obtain ⟨r, hr, hplan⟩ := amj_single i jtag mtag
  have hcab := cab_single_isOk i ctag ttag
  unfold allocate_all_terminals_auto
  rw [hr]
  rcases hc : (allocate_cabinet_terminals [i] ctag ttag (1/5) 12).1 with e | ar
  · rw [hc] at hcab
    simp [Except.isOk, Except.toBool] at hcab
  · norm_num [hplan, demoPlan1, sliceByCounts, List.enum, List.enumFrom,
      JB_CAPACITIES, hc, collectOk]

/-- Concrete run: the mixed demo pair flows through the signal-segregated
pipeline successfully. -/
lemma demoMixed_pipeline_isSome :
    (allocate_by_signal_type demoMixed "PP01-601-IAJB0001" "PP01-601-IDJB0001"
      "PP01-601-ICP001" "PP01-601-I0001" "PP01-601-I0050" "TB601-I0001"
      "TB601-I0050" (1/5)).isSome = true := by
  have ha := auto_single (demoInstrument "PP01-601-TIT0001" (some .analogInput))
    "PP01-601-IAJB0001" "PP01-601-ICP001" "TB601-I0001" "PP01-601-I0001"
  have hd := auto_single (demoInstrument "PP01-601-ZS0001" (some .digitalInput))
    "PP01-601-IDJB0001" "PP01-601-ICP001" "TB601-I0050" "PP01-601-I0050"
  rw [Option.isSome_iff_exists] at ha hd
  obtain ⟨ra, hra⟩ := ha
  obtain ⟨rd, hrd⟩ := hd
  unfold allocate_by_signal_type
  rw [sep_demoMixed]
  rw [show (1/5 : ℚ) = 5⁻¹ from one_div 5] at hra hrd
  simp [hra, hrd, List.isEmpty]

/-- Witness for C7: the mixed demo pair at spare percent 1/5. -/
theorem signal_type_segregation_witness :
    (allocate_by_signal_type demoMixed "PP01-601-IAJB0001" "PP01-601-IDJB0001"
        "PP01-601-ICP001" "PP01-601-I0001" "PP01-601-I0050" "TB601-I0001"
        "TB601-I0050" (1/5)).isSome = true ∧
      (separate_instruments_by_signal_type demoMixed =
        (demoMixed.filter instrumentGoesAnalog,
          demoMixed.filter fun i => ! instrumentGoesAnalog i)) ∧
      (∀ res,
        allocate_by_signal_type demoMixed "PP01-601-IAJB0001" "PP01-601-IDJB0001"
          "PP01-601-ICP001" "PP01-601-I0001" "PP01-601-I0050" "TB601-I0001"
          "TB601-I0050" (1/5) = some res →
        res.analog_instruments = demoMixed.filter instrumentGoesAnalog ∧
        res.digital_instruments =
          demoMixed.filter (fun i => ! instrumentGoesAnalog i) ∧
        (∀ i ∈ res.analog_instruments, instrumentGoesAnalog i = true) ∧
        (∀ i ∈ res.digital_instruments, instrumentGoesAnalog i = false) ∧
        ∀ jb ∈ res.all_jbs,
          UsedTagsFrom jb res.analog_instruments ∨
            UsedTagsFrom jb res.digital_instruments) :=
  ⟨demoMixed_pipeline_isSome,
    (signal_type_segregation demoMixed "PP01-601-IAJB0001" "PP01-601-IDJB0001"
      "PP01-601-ICP001" "PP01-601-I0001" "PP01-601-I0050" "TB601-I0001"
      "TB601-I0050" (1/5)).1,
    (signal_type_segregation demoMixed "PP01-601-IAJB0001" "PP01-601-IDJB0001"
      "PP01-601-ICP001" "PP01-601-I0001" "PP01-601-I0050" "TB601-I0001"
      "TB601-I0050" (1/5)).2.2⟩

end WiringDiagram
